import Mathlib

/-!
Shallow embedding of the transit-routeset optimizer
(`thesis/optimization/routeset_graph.py`, `common.py`, `genetic.py`).

Python dicts are modelled as insertion-ordered association lists, the
graph-tool directed multigraph as a vertex count plus an ordered edge list
(each edge carrying its `duration` property), and `remove_vertex(fast=True)`
with graph-tool's index-reuse semantics: the highest-indexed vertex is
renumbered into the removed slot.  Durations and demand counts are
integers throughout the pipeline (`nested_dict_to_int`), so they are
modelled as `Int`; only the objective value, which divides by the number
of travel times, is a `Rat`.
-/

namespace Thesis

/-- Python dict: insertion-ordered association list. -/
abbrev Dict (α β : Type) := List (α × β)

/-- Dictionary lookup, `d[k]` (as an `Option`). -/
def dget [DecidableEq α] (d : Dict α β) (k : α) : Option β :=
  (d.find? fun p => decide (p.1 = k)).map (·.2)

/-- Python `d[k] = v`: replace in place if the key exists, else append. -/
def dset [DecidableEq α] (d : Dict α β) (k : α) (v : β) : Dict α β :=
  if (d.find? fun p => decide (p.1 = k)).isSome then
    d.map (fun p => if p.1 = k then (k, v) else p)
  else d ++ [(k, v)]

/-- Python `del d[k]`. -/
def ddel [DecidableEq α] (d : Dict α β) (k : α) : Dict α β :=
  d.filter (fun p => decide (p.1 ≠ k))

/-- In-place mutation of the value stored at `k` (no-op when `k` is absent;
the Python source only performs it on present keys). -/
def dmodify [DecidableEq α] (d : Dict α β) (k : α) (f : β → β) : Dict α β :=
  d.map (fun p => if p.1 = k then (p.1, f p.2) else p)

/-- Python `set.add` on an order-insensitive set modelled as a list. -/
def sinsert [DecidableEq α] (s : List α) (a : α) : List α :=
  if a ∈ s then s else s ++ [a]

/-- Elements of a list not already seen, keeping first occurrences. -/
def dedupKeepFirstAux [DecidableEq α] (seen : List α) : List α → List α
  | [] => []
  | x :: xs =>
    if x ∈ seen then dedupKeepFirstAux seen xs
    else x :: dedupKeepFirstAux (seen ++ [x]) xs

/-- Duplicate removal keeping first occurrences (`set(...)` where only
membership and cardinality are observed). -/
def dedupKeepFirst [DecidableEq α] (l : List α) : List α :=
  dedupKeepFirstAux [] l

/-- Python `list.insert(n, a)` (non-negative index; clamps to append). -/
def listInsertIdx (l : List α) (n : Nat) (a : α) : List α :=
  l.take n ++ a :: l.drop n

/-- One directed edge of the graph-tool multigraph, with its `duration`
edge property. -/
structure GtEdge where
  src : Nat
  dst : Nat
  dur : Int
deriving DecidableEq

/-- The graph-tool directed multigraph: contiguous vertex indices
`0 .. numVertices-1` plus an ordered edge list. -/
structure GtGraph where
  numVertices : Nat
  edges : List GtEdge
deriving DecidableEq

/-- Graph with no vertices. -/
def GtGraph.empty : GtGraph := { numVertices := 0, edges := [] }

/-- `g.add_vertex()`: the new vertex receives the next free index. -/
def GtGraph.addVertex (g : GtGraph) : GtGraph × Nat :=
  ({ g with numVertices := g.numVertices + 1 }, g.numVertices)

/-- `g.add_edge(u, v)` plus setting its `duration` property. -/
def GtGraph.addEdge (g : GtGraph) (u v : Nat) (w : Int) : GtGraph :=
  { g with edges := g.edges ++ [⟨u, v, w⟩] }

/-- `g.edge(u, v)`: some edge from `u` to `v` when one exists. -/
def GtGraph.edge (g : GtGraph) (u v : Nat) : Option GtEdge :=
  g.edges.find? fun e => decide (e.src = u ∧ e.dst = v)

/-- `g.remove_vertex(v, fast=True)`: drop `v` and its incident edges, then
renumber the highest-indexed vertex into slot `v`. -/
def GtGraph.removeVertexFast (g : GtGraph) (v : Nat) : GtGraph :=
  let last := g.numVertices - 1
  { numVertices := g.numVertices - 1,
    edges := (g.edges.filter fun e => decide (e.src ≠ v ∧ e.dst ≠ v)).map
      (fun e => ⟨if e.src = last then v else e.src,
                 if e.dst = last then v else e.dst, e.dur⟩) }

/-- Reserved `route_id` marker for origin vertices. -/
def ORIGIN : Int := -1

/-- Reserved `route_id` marker for destination vertices. -/
def DEST : Int := -2

/-- Class attribute `RouteSetGraph.bus_stop_time`. -/
def busStopTime : Int := 30

/-- Class attribute `RouteSetGraph.transfer_time`. -/
def transferTime : Int := 300

/-- Class attribute `RouteSetGraph.w2_offset = 50 * 60`. -/
def w2Offset : Int := 50 * 60

/-- Entry of the `vertex_to_stop` reverse directory. -/
structure VertexToStop where
  stop_id : Nat
  route_id : Int
deriving DecidableEq

/-- `Stop.RouteNode`: per-(stop, route) record. -/
structure RouteNode where
  route_id : Int
  stop_seq : Nat
  vertex_idx : Nat
deriving DecidableEq

/-- The per-stop record (`Stop` in the source). -/
structure Stop where
  stop_id : Nat
  origin_idx : Nat
  destination_idx : Nat
  route_nodes : Dict Int RouteNode
deriving DecidableEq

/-- Two-decimal rounding used only inside the fitness report
(`round(x, 2)`; Python rounds ties to even, which differs from `round`
only at exact ties — no claim observes this value). -/
def round2 (x : Rat) : Rat := (round (x * 100) : Int) / 100

/-- The dictionary returned by `_compute_fitness` as its report. -/
structure Report where
  nsatisfied_od_pairs : Nat
  nunsatisfied_od_pairs : Nat
  nsatisfied_stops : Nat
  nunsatisfied_stops : Nat
  satisfied_demand : Int
  unsatisfied_demand : Int
  average_travel_time_min : Rat
  transfers : Dict Int Int
  no_path : Nat
  no_path_less_2_transfers : Nat
deriving DecidableEq

/-- The mutable individual: graph, directories, routes, dirty flag and
memoized fitness/report (`_fitness`, `_report`).  The optional history
trail is not modelled (it is bookkeeping only). -/
structure RouteSetGraph where
  gtG : GtGraph
  vertex_to_stop : Dict Nat VertexToStop
  routes : Dict Int (List Nat)
  stops : Dict Nat Stop
  routes_changed : Bool
  fitness : Rat
  report : Option Report

deriving DecidableEq

namespace RouteSetGraph

/-- `RouteSetGraph.__init__`. -/
def empty : RouteSetGraph :=
  { gtG := GtGraph.empty, vertex_to_stop := [], routes := [], stops := [],
    routes_changed := false, fitness := -1, report := none }

/-- `copy()`: re-inits then reassigns everything except `_report`
(which therefore resets to `None`). -/
def copy (g : RouteSetGraph) : RouteSetGraph := { g with report := none }

/-- `nroutes()`. -/
def nroutes (g : RouteSetGraph) : Nat := g.routes.length

/-- `add_vertex_to_stop_mapping`. -/
def addVertexToStopMapping (g : RouteSetGraph) (vidx sid : Nat) (rid : Int) :
    RouteSetGraph :=
  { g with vertex_to_stop := dset g.vertex_to_stop vidx ⟨sid, rid⟩ }

/-- `_add_stop_base`: create `O(s)` and `D(s)` and register the stop. -/
def addStopBase (g : RouteSetGraph) (sid : Nat) : RouteSetGraph :=
  let p1 := g.gtG.addVertex
  let p2 := p1.1.addVertex
  let g := { g with gtG := p2.1 }
  let g := g.addVertexToStopMapping p1.2 sid ORIGIN
  let g := g.addVertexToStopMapping p2.2 sid DEST
  { g with stops := dset g.stops sid ⟨sid, p1.2, p2.2, []⟩ }

/-- `_add_stop`: insert `sid` into route `rid` at index `stop_seq`,
creating the route vertex and its boarding/alighting/transfer edges. -/
def addStop (g : RouteSetGraph) (sid : Nat) (rid : Int) (stop_seq : Nat) :
    RouteSetGraph :=
  let g := if (dget g.stops sid).isSome then g else g.addStopBase sid
  let p := g.gtG.addVertex
  let rv := p.2
  let g := { g with gtG := p.1 }
  let g := { g with routes := dmodify g.routes rid (fun r => listInsertIdx r stop_seq sid) }
  let g := g.addVertexToStopMapping rv sid rid
  match dget g.stops sid with
  | none => g
  | some stop =>
    let g := { g with gtG := (g.gtG.addEdge stop.origin_idx rv 0).addEdge rv stop.destination_idx 0 }
    let tGt := stop.route_nodes.foldl
      (fun gg q => (gg.addEdge rv q.2.vertex_idx transferTime).addEdge q.2.vertex_idx rv transferTime)
      g.gtG
    let g := { g with gtG := tGt }
    let nStops := dmodify g.stops sid
      (fun s => { s with route_nodes := dset s.route_nodes rid ⟨rid, stop_seq, rv⟩ })
    { g with stops := nStops }

/-- `_add_route_edge` (a no-op on lookups that would raise `KeyError`). -/
def addRouteEdge (g : RouteSetGraph) (from_sid to_sid : Nat) (rid : Int)
    (duration : Int) : RouteSetGraph :=
  match dget g.stops from_sid, dget g.stops to_sid with
  | some fs, some ts =>
    match dget fs.route_nodes rid, dget ts.route_nodes rid with
    | some fn, some tn =>
      { g with gtG := g.gtG.addEdge fn.vertex_idx tn.vertex_idx duration }
    | _, _ => g
  | _, _ => g

/-- `append_stop`: the in-vehicle edge weight is the literal
`100 + self.bus_stop_time` — the `Durations().get_duration(prev_sid,
stop_id)` term is commented out in the source. -/
def appendStop (g : RouteSetGraph) (sid : Nat) (rid : Int) : RouteSetGraph :=
  let g := { g with routes_changed := true }
  let route := (dget g.routes rid).getD []
  let g := g.addStop sid rid route.length
  match route.getLast? with
  | none => g
  | some prev => g.addRouteEdge prev sid rid (100 + busStopTime)

/-- Loop body of `prepend_stop`: increment the `stop_seq` of stop `s`
in route `rid`. -/
def bumpSeqStep (rid : Int) (gg : RouteSetGraph) (s : Nat) : RouteSetGraph :=
  { gg with stops := dmodify gg.stops s (fun st => { st with route_nodes := dmodify st.route_nodes rid (fun rn => { rn with stop_seq := rn.stop_seq + 1 }) }) }

/-- `prepend_stop` (`dur` stands for the `Durations()` table). -/
def prependStop (g : RouteSetGraph) (dur : Nat → Nat → Int) (sid : Nat)
    (rid : Int) : RouteSetGraph :=
  let g := { g with routes_changed := true }
  let g := g.addStop sid rid 0
  let route := (dget g.routes rid).getD []
  let g := (route.drop 1).foldl (bumpSeqStep rid) g
  match route.get? 1 with
  | none => g
  | some next => g.addRouteEdge sid next rid (dur sid next + busStopTime)

/-- `add_route` (route id defaults to `len(self.routes)`). -/
def addRoute (g : RouteSetGraph) (route : List Nat) (rid : Option Int) :
    RouteSetGraph :=
  let g := { g with routes_changed := true }
  let rid := rid.getD (g.routes.length : Int)
  let g := { g with routes := dset g.routes rid [] }
  route.foldl (fun gg sid => gg.appendStop sid rid) g

/-- `_update_last_node_references`: before deleting `node`, rewrite both
directories for the occupant of the top vertex slot.  When `node` is
itself the top slot the method returns early — leaving the
`vertex_to_stop` entry for that slot in place. -/
def updateLastNodeReferences (g : RouteSetGraph) (node : Nat) : RouteSetGraph :=
  let last := g.gtG.numVertices - 1
  if last = node then g
  else
    match dget g.vertex_to_stop last with
    | none => g
    | some sm =>
      let upd := fun (st : Stop) =>
        if sm.route_id = ORIGIN then { st with origin_idx := node }
        else if sm.route_id = DEST then { st with destination_idx := node }
        else { st with route_nodes := dmodify st.route_nodes sm.route_id (fun rn => { rn with vertex_idx := node }) }
      let g := { g with stops := dmodify g.stops sm.stop_id upd }
      let g := { g with vertex_to_stop := dset g.vertex_to_stop node sm }
      { g with vertex_to_stop := ddel g.vertex_to_stop last }

/-- `get_edge`: the graph edge between the two route vertices. -/
def getEdge (g : RouteSetGraph) (from_sid to_sid : Nat) (rid : Int) :
    Option GtEdge :=
  match dget g.stops from_sid, dget g.stops to_sid with
  | some fs, some ts =>
    match dget fs.route_nodes rid, dget ts.route_nodes rid with
    | some fn, some tn => g.gtG.edge fn.vertex_idx tn.vertex_idx
    | _, _ => none
  | _, _ => none

/-- `_delete_stop`: remove `D(s)` then `O(s)` (re-reading `origin_idx`
after the first removal, as the live Python object would) and drop the
stop record. -/
def deleteStop (g : RouteSetGraph) (sid : Nat) : RouteSetGraph :=
  match dget g.stops sid with
  | none => g
  | some st =>
    let dnode := st.destination_idx
    let g := g.updateLastNodeReferences dnode
    let g := { g with gtG := g.gtG.removeVertexFast dnode }
    match dget g.stops sid with
    | none => { g with stops := ddel g.stops sid }
    | some st2 =>
      let onode := st2.origin_idx
      let g := g.updateLastNodeReferences onode
      let g := { g with gtG := g.gtG.removeVertexFast onode }
      { g with stops := ddel g.stops sid }

/-- Loop body of `remove_node`: decrement the `stop_seq` of stop `s`
in route `rid`. -/
def decSeqStep (rid : Int) (gg : RouteSetGraph) (s : Nat) : RouteSetGraph :=
  { gg with stops := dmodify gg.stops s (fun st => { st with route_nodes := dmodify st.route_nodes rid (fun rn => { rn with stop_seq := rn.stop_seq - 1 }) }) }

/-- The tail of `remove_node` after the splice: delete the route vertex,
update seqs and the route list, and run the (mislocated) orphan check.
The Python `seq` and `route` variables were captured before any
mutation, so they are explicit parameters here. -/
def removeNodeCore (g : RouteSetGraph) (sid : Nat) (rid : Int) (seq : Nat)
    (route : List Nat) : RouteSetGraph :=
  let node := (((dget g.stops sid).bind fun s => dget s.route_nodes rid).map (·.vertex_idx)).getD 0
  let g := g.updateLastNodeReferences node
  let g := { g with gtG := g.gtG.removeVertexFast node }
  let g := { g with stops := dmodify g.stops sid (fun st => { st with route_nodes := ddel st.route_nodes rid }) }
  let g := (route.drop (seq + 1)).foldl (decSeqStep rid) g
  let g := { g with routes := dmodify g.routes rid (fun r => r.eraseIdx seq) }
  let checkSid := ((route.drop (seq + 1)).getLast?).getD sid
  match dget g.stops checkSid with
  | some st => if st.route_nodes = [] then g.deleteStop sid else g
  | none => g

/-- `remove_node`.  The final orphan-stop check (inside
`removeNodeCore`) reads the Python variable `stop`, which the preceding
seq-update loop rebinds to the last later stop of the route whenever
`route[seq+1:]` is non-empty; `checkSid` reproduces that rebinding. -/
def removeNode (g : RouteSetGraph) (sid : Nat) (rid : Int) : RouteSetGraph :=
  let g := { g with routes_changed := true }
  let seq := (((dget g.stops sid).bind fun s => dget s.route_nodes rid).map (·.stop_seq)).getD 0
  let route := (dget g.routes rid).getD []
  let g :=
    if seq > 0 ∧ seq < route.length - 1 then
      match g.getEdge (route.getD (seq - 1) 0) (route.getD seq 0) rid,
            g.getEdge (route.getD seq 0) (route.getD (seq + 1) 0) rid with
      | some e1, some e2 =>
        g.addRouteEdge (route.getD (seq - 1) 0) (route.getD (seq + 1) 0) rid
          (e1.dur + e2.dur - busStopTime)
      | _, _ => g
    else g
  removeNodeCore g sid rid seq route

/-- Loop body of `remove_route`: remove the route vertex of `sid` in
route `rid` and clean up the stop when it has become orphan. -/
def removeRouteStep (rid : Int) (gg : RouteSetGraph) (sid : Nat) : RouteSetGraph :=
  let node := (((dget gg.stops sid).bind fun s => dget s.route_nodes rid).map (·.vertex_idx)).getD 0
  let gg := gg.updateLastNodeReferences node
  let gg := { gg with gtG := gg.gtG.removeVertexFast node }
  let gg := { gg with stops := dmodify gg.stops sid (fun st => { st with route_nodes := ddel st.route_nodes rid }) }
  match dget gg.stops sid with
  | some st => if st.route_nodes = [] then gg.deleteStop sid else gg
  | none => gg

/-- `remove_route`: delete the route vertices in reverse stop order,
cleaning up orphan stops, then drop the route slot. -/
def removeRoute (g : RouteSetGraph) (rid : Int) : RouteSetGraph :=
  let g := { g with routes_changed := true }
  let route := (dget g.routes rid).getD []
  let g := route.reverse.foldl (removeRouteStep rid) g
  { g with routes := ddel g.routes rid }

/-- `replace_route`. -/
def replaceRoute (g : RouteSetGraph) (rid : Int) (new_route : List Nat) :
    RouteSetGraph :=
  let g := { g with routes_changed := true }
  (g.removeRoute rid).addRoute new_route (some rid)

end RouteSetGraph

/-- `is_route_node`: real routes have non-negative ids. -/
def isRouteNode (v : VertexToStop) : Bool := v.route_id ≥ 0

/-- The walk of `get_distances_transfers` along the Dijkstra predecessor
map (`pred`), accumulating the set `rids` of route ids of the route
vertices it meets; `fuel` bounds the `while` loop (`none` models
non-termination within `fuel` or a `KeyError`). -/
def walkRidsAux (st : RouteSetGraph) (pred : Nat → Nat) (from_sid : Nat) :
    Nat → Nat → Nat → List Int → Option (List Int)
  | 0, _, _, _ => none
  | fuel + 1, sid, v, rids =>
    if sid = from_sid then some rids
    else
      match dget st.vertex_to_stop (pred v) with
      | none => none
      | some vts =>
        let rids := if isRouteNode vts then sinsert rids vts.route_id else rids
        walkRidsAux st pred from_sid fuel vts.stop_id (pred v) rids

/-- Specification-side reconstruction: the list of `vertex_to_stop`
markers visited while walking the predecessor map from the destination
vertex back to the origin stop. -/
def walkMarkers (st : RouteSetGraph) (pred : Nat → Nat) (from_sid : Nat) :
    Nat → Nat → Nat → Option (List VertexToStop)
  | 0, _, _ => none
  | fuel + 1, sid, v =>
    if sid = from_sid then some []
    else
      match dget st.vertex_to_stop (pred v) with
      | none => none
      | some vts => (walkMarkers st pred from_sid fuel vts.stop_id (pred v)).map (vts :: ·)

/-- Distinct route ids of the route vertices on a reconstructed path. -/
def routeIdsOnPath (path : List VertexToStop) : List Int :=
  dedupKeepFirst ((path.filter fun v => isRouteNode v).map (·.route_id))

/-- Body of the result loop of `get_distances_transfers` for one target:
input `dist` is the Dijkstra distance (`none` = infinite).  Outer `none`
models the `RuntimeError` / `KeyError` paths; `some none` is the
`(None, None)` no-path entry. -/
def processTarget (st : RouteSetGraph) (pred : Nat → Nat) (from_sid : Nat)
    (fuel : Nat) (to_sid : Nat) (dist : Option Int) :
    Option (Option (Int × Int)) :=
  match dist with
  | none => some none
  | some d =>
    match dget st.stops to_sid with
    | none => none
    | some s =>
      match walkRidsAux st pred from_sid fuel to_sid s.destination_idx [] with
      | none => none
      | some rids =>
        let ntransfers : Int := (rids.length : Int) - 1
        if ntransfers = -1 then none
        else some (some (d - (busStopTime * ntransfers + busStopTime), ntransfers))

/-- `get_distances_transfers`, with the Dijkstra outputs (`dists` zipped
with `to_sids`, and the predecessor map `pred`) taken as inputs. -/
def getDistancesTransfers (st : RouteSetGraph) (pred : Nat → Nat)
    (fuel : Nat) (from_sid : Nat) (to_sids : List Nat)
    (dists : List (Option Int)) : Option (Dict Nat (Option (Int × Int))) :=
  (to_sids.zip dists).foldl
    (fun racc p => racc.bind fun r =>
      (processTarget st pred from_sid fuel p.1 p.2).map fun v => dset r p.1 v)
    (some [])

/-- Read-only demand tables consumed by `_compute_fitness`:
`ODX().origins` (iteration order fixed by the parameter), `get_dests`
and `get_odx`. -/
structure OdxData where
  origins : List Nat
  dests : Nat → List Nat
  odx : Nat → Nat → Int

/-- `defaultdict(int)` addition used for the per-transfer-count tally. -/
def dictAdd (d : Dict Int Int) (k : Int) (v : Int) : Dict Int Int :=
  match dget d k with
  | some old => dset d k (old + v)
  | none => d ++ [(k, v)]

/-- Accumulator of the `_compute_fitness` loops (sets are modelled as
duplicate-free lists; only membership and cardinality are observed). -/
structure FitAcc where
  TT : Int
  TTR : Int
  transfers : Dict Int Int
  unsat_od : List (Nat × Nat)
  unsat_demand : Int
  unsat_stops : List Nat
  no_path : List (Nat × Nat)
  no_path_l2 : List (Nat × Nat)
  sat_od : List (Nat × Nat)
  sat_demand : Int
  sat_stops : List Nat
  travel_times : List Int

/-- Accumulator at the start of `_compute_fitness`. -/
def FitAcc.init : FitAcc :=
  { TT := 0, TTR := 0, transfers := [], unsat_od := [], unsat_demand := 0,
    unsat_stops := [], no_path := [], no_path_l2 := [], sat_od := [],
    sat_demand := 0, sat_stops := [], travel_times := [] }

/-- First inner loop of `_compute_fitness`: classify destination `d` of
origin `o` as absent (unsatisfied) or append it to `destinations`. -/
def fitnessDestClassify (D : OdxData) (st : RouteSetGraph) (o : Nat)
    (p : FitAcc × List Nat) (d : Nat) : FitAcc × List Nat :=
  let acc := p.1
  if (dget st.stops d).isNone then
    ({ acc with unsat_stops := sinsert acc.unsat_stops d,
                unsat_od := sinsert acc.unsat_od (o, d),
                unsat_demand := acc.unsat_demand + D.odx o d }, p.2)
  else
    ({ acc with sat_stops := sinsert acc.sat_stops d }, p.2 ++ [d])

/-- Second inner loop of `_compute_fitness`: fold one
`(dist, ntransfers)` result (`gdt o d`, with `none` = no path) into the
accumulator. -/
def fitnessDestProcess (D : OdxData) (gdt : Nat → Nat → Option (Int × Int))
    (o : Nat) (acc : FitAcc) (d : Nat) : FitAcc :=
  let odxv := D.odx o d
  match gdt o d with
  | none =>
    { acc with no_path := sinsert acc.no_path (o, d),
               unsat_od := sinsert acc.unsat_od (o, d),
               unsat_demand := acc.unsat_demand + odxv }
  | some q =>
    let dist := q.1
    let nt := q.2
    let acc := { acc with TTR := acc.TTR + nt * odxv,
                          transfers := dictAdd acc.transfers nt odxv,
                          travel_times := acc.travel_times ++ [dist] }
    let acc :=
      if nt > 2 then
        { acc with no_path_l2 := sinsert acc.no_path_l2 (o, d),
                   unsat_od := sinsert acc.unsat_od (o, d),
                   unsat_demand := acc.unsat_demand + odxv }
      else
        { acc with sat_od := sinsert acc.sat_od (o, d),
                   sat_demand := acc.sat_demand + odxv }
    { acc with TT := acc.TT + dist * odxv }

/-- One iteration of the per-origin loop of `_compute_fitness`. -/
def fitnessOrigin (D : OdxData) (st : RouteSetGraph)
    (gdt : Nat → Nat → Option (Int × Int)) (acc : FitAcc) (o : Nat) : FitAcc :=
  if (dget st.stops o).isNone then
    { acc with unsat_stops := sinsert acc.unsat_stops o,
               unsat_od := (D.dests o).foldl (fun s d => sinsert s (o, d)) acc.unsat_od,
               unsat_demand := acc.unsat_demand + ((D.dests o).map (fun d => D.odx o d)).sum }
  else
    let acc := { acc with sat_stops := sinsert acc.sat_stops o }
    let q := (D.dests o).foldl (fitnessDestClassify D st o) (acc, [])
    q.2.foldl (fitnessDestProcess D gdt o) q.1

namespace RouteSetGraph

/-- `_compute_fitness`, with the per-pair shortest-path results
(`get_distances_transfers`) supplied by the oracle `gdt`.  The empty
`travel_times` corner (`np.mean([])`, a NaN) is outside the modelled
domain; `Rat` division by zero yields 0 there. -/
def computeFitness (st : RouteSetGraph) (D : OdxData)
    (gdt : Nat → Nat → Option (Int × Int)) : Report × Rat :=
  let a := D.origins.foldl (fitnessOrigin D st gdt) FitAcc.init
  let TU := a.unsat_demand
  let ATT : Rat := (a.travel_times.sum : Rat) / (a.travel_times.length : Rat)
  let w2 : Rat := ATT + (w2Offset : Rat)
  ({ nsatisfied_od_pairs := a.sat_od.length,
     nunsatisfied_od_pairs := a.unsat_od.length,
     nsatisfied_stops := a.sat_stops.length,
     nunsatisfied_stops := a.unsat_stops.length,
     satisfied_demand := a.sat_demand,
     unsatisfied_demand := a.unsat_demand,
     average_travel_time_min := round2 (ATT / 60),
     transfers := a.transfers,
     no_path := a.no_path.length,
     no_path_less_2_transfers := a.no_path_l2.length },
   (a.TT : Rat) + (a.TTR : Rat) + (TU : Rat) * w2)

/-- `get_fitness`: recompute only when `routes_changed` is set. -/
def getFitness (st : RouteSetGraph) (D : OdxData)
    (gdt : Nat → Nat → Option (Int × Int)) : RouteSetGraph × Rat :=
  if st.routes_changed then
    let rf := st.computeFitness D gdt
    ({ st with report := some rf.1, fitness := rf.2, routes_changed := false }, rf.2)
  else (st, st.fitness)

/-- `get_report`: runs `get_fitness` first, then returns `_report`. -/
def getReport (st : RouteSetGraph) (D : OdxData)
    (gdt : Nat → Nat → Option (Int × Int)) : RouteSetGraph × Option Report :=
  let p := st.getFitness D gdt
  (p.1, p.1.report)

end RouteSetGraph

/-- Specification-side list of served destinations of origin `o`
(both endpoints present in the route set). -/
def servedDests (st : RouteSetGraph) (D : OdxData) (o : Nat) : List Nat :=
  (D.dests o).filter fun d => (dget st.stops d).isSome

/-- Travel times of the successful reconstructions from origin `o`. -/
def oTTs (D : OdxData) (st : RouteSetGraph)
    (gdt : Nat → Nat → Option (Int × Int)) (o : Nat) : List Int :=
  (servedDests st D o).filterMap fun d => (gdt o d).map (·.1)

/-- Demand-weighted travel time contributed by origin `o`. -/
def oTT (D : OdxData) (st : RouteSetGraph)
    (gdt : Nat → Nat → Option (Int × Int)) (o : Nat) : Int :=
  ((servedDests st D o).map fun d =>
    match gdt o d with
    | some q => q.1 * D.odx o d
    | none => 0).sum

/-- Demand-weighted transfer count contributed by origin `o`. -/
def oTTR (D : OdxData) (st : RouteSetGraph)
    (gdt : Nat → Nat → Option (Int × Int)) (o : Nat) : Int :=
  ((servedDests st D o).map fun d =>
    match gdt o d with
    | some q => q.2 * D.odx o d
    | none => 0).sum

/-- Unsatisfied demand contributed by origin `o`: the whole row when `o`
is absent from the route set, otherwise the demand of every destination
that is absent, unreachable, or needs more than two transfers. -/
def oTU (D : OdxData) (st : RouteSetGraph)
    (gdt : Nat → Nat → Option (Int × Int)) (o : Nat) : Int :=
  if (dget st.stops o).isNone then ((D.dests o).map fun d => D.odx o d).sum
  else ((D.dests o).map fun d =>
    if (dget st.stops d).isNone then D.odx o d
    else
      match gdt o d with
      | none => D.odx o d
      | some q => if q.2 > 2 then D.odx o d else 0).sum

/-- Specification-side list of travel times of all successful
reconstructions, in evaluation order — including paths with more than
two transfers. -/
def specTravelTimes (D : OdxData) (st : RouteSetGraph)
    (gdt : Nat → Nat → Option (Int × Int)) : List Int :=
  (D.origins.filter fun o => (dget st.stops o).isSome).flatMap (oTTs D st gdt)

/-- Specification-side total travel time `TT`. -/
def specTT (D : OdxData) (st : RouteSetGraph)
    (gdt : Nat → Nat → Option (Int × Int)) : Int :=
  ((D.origins.filter fun o => (dget st.stops o).isSome).map (oTT D st gdt)).sum

/-- Specification-side transfer penalty `TTR`. -/
def specTTR (D : OdxData) (st : RouteSetGraph)
    (gdt : Nat → Nat → Option (Int × Int)) : Int :=
  ((D.origins.filter fun o => (dget st.stops o).isSome).map (oTTR D st gdt)).sum

/-- Specification-side unsatisfied demand `TU`: demand of pairs whose
endpoints are absent, have no path, or need more than two transfers. -/
def specTU (D : OdxData) (st : RouteSetGraph)
    (gdt : Nat → Nat → Option (Int × Int)) : Int :=
  (D.origins.map (oTU D st gdt)).sum

/-- Input tables of `get_initial_routeset`: `DS().origins` (in iteration
order), `DS().get_dests`, `DS().get_ds`, `ODX().get_odx` (`none` models
the `KeyError` branch) and `RoadGraph.shortest_path`. -/
structure InitInput where
  dsOrigins : List Nat
  dsDests : Nat → List Nat
  dsGet : Nat → Nat → List (Nat × Nat)
  odx : Nat → Nat → Option Int
  sp : Nat → Nat → List Nat

/-- State of the `while` loop of `get_initial_routeset`. -/
structure InitState where
  routes : List (List Nat)
  totals : Dict (Nat × Nat) Int
  satBy : Dict (Nat × Nat) (List (Nat × Nat))
  ns : List (Nat × Nat)
  i : Nat
deriving DecidableEq

/-- Initial `totals` / `satisfied_by` tables of `get_initial_routeset`. -/
def buildTotals (I : InitInput) : Dict (Nat × Nat) Int × Dict (Nat × Nat) (List (Nat × Nat)) :=
  I.dsOrigins.foldl
    (fun st o => (I.dsDests o).foldl
      (fun st d =>
        let st := (dset st.1 (o, d) 0, st.2)
        (dedupKeepFirst (I.dsGet o d)).foldl
          (fun st2 mn =>
            match I.odx mn.1 mn.2 with
            | none => st2
            | some v =>
              (dmodify st2.1 (o, d) (· + v),
               dset st2.2 mn (sinsert ((dget st2.2 mn).getD []) (o, d))))
          st)
      st)
    ([], [])

/-- Loop entry state of `get_initial_routeset`. -/
def initStart (I : InitInput) : InitState :=
  let p := buildTotals I
  { routes := [], totals := p.1, satBy := p.2, ns := [], i := 0 }

/-- Stable insertion into a list sorted by descending value
(Python `sorted(..., key=value, reverse=True)` keeps ties in order). -/
def insertDesc (x : (Nat × Nat) × Int) :
    List ((Nat × Nat) × Int) → List ((Nat × Nat) × Int)
  | [] => [x]
  | y :: ys => if y.2 > x.2 then y :: insertDesc x ys else x :: y :: ys

/-- Stable sort by descending value. -/
def sortDesc : List ((Nat × Nat) × Int) → List ((Nat × Nat) × Int)
  | [] => []
  | x :: xs => insertDesc x (sortDesc xs)

/-- One iteration of the `while i < n_routes` loop of
`get_initial_routeset`: first re-apply the decrements for the current
`newly_satisfied` set, then sort, pick the top pair and try its shortest
path.  On an empty path the code only logs and continues — `ns` is NOT
cleared and the pair is NOT invalidated.  `inl` = normal return,
`inr` = next state, `none` = `IndexError` on an empty `totals`. -/
def initStep (I : InitInput) (nRoutes : Nat) (s : InitState) :
    Option (Sum (List (List Nat)) InitState) :=
  if s.i ≥ nRoutes then some (Sum.inl s.routes)
  else
    let totals := s.ns.foldl
      (fun t mn => ((dget s.satBy mn).getD []).foldl
        (fun t od =>
          match I.odx mn.1 mn.2 with
          | some v => dmodify t od (· - v)
          | none => t)
        t)
      s.totals
    let totals := sortDesc totals
    match totals.head? with
    | none => none
    | some top =>
      let o := top.1.1
      let d := top.1.2
      let path := I.sp o d
      if path = [] then some (Sum.inr { s with totals := totals })
      else some (Sum.inr { routes := s.routes ++ [path], totals := totals,
                           satBy := s.satBy, ns := dedupKeepFirst (I.dsGet o d),
                           i := s.i + 1 })

/-- Fuel-bounded run of the loop, returning the produced routes
(`none` when the loop has not returned within `fuel` iterations). -/
def initLoop (I : InitInput) (nRoutes : Nat) : Nat → InitState → Option (List (List Nat))
  | 0, _ => none
  | fuel + 1, s =>
    match initStep I nRoutes s with
    | none => none
    | some (Sum.inl r) => some r
    | some (Sum.inr s2) => initLoop I nRoutes fuel s2

/-- `get_initial_routeset` (fuel-bounded). -/
def get_initial_routeset (I : InitInput) (nRoutes fuel : Nat) :
    Option (List (List Nat)) :=
  initLoop I nRoutes fuel (initStart I)

/-- Run `n` iterations of the loop and return the reached state
(stopping early on return or error), to observe intermediate `totals`. -/
def initRun (I : InitInput) (nRoutes : Nat) : Nat → InitState → InitState
  | 0, s => s
  | n + 1, s =>
    match initStep I nRoutes s with
    | some (Sum.inr s2) => initRun I nRoutes n s2
    | _ => s

/-- Body of the swap loop of `Algorithm.crossover`: swap route slot
`idx` between the two children unless their routes are identical. -/
def crossoverStep (pp : RouteSetGraph × RouteSetGraph) (idx : Nat) :
    RouteSetGraph × RouteSetGraph :=
  let rp1 := (dget pp.1.routes (idx : Int)).getD []
  let rp2 := (dget pp.2.routes (idx : Int)).getD []
  if rp1 = rp2 then pp
  else (pp.1.replaceRoute (idx : Int) rp2, pp.2.replaceRoute (idx : Int) rp1)

/-- `Algorithm.crossover`: clone both parents, draw one uniform sample
per route slot (`samples`, the outcome of `np.random.random_sample`),
and swap every selected non-identical route between the children. -/
def crossover (p1 p2 : RouteSetGraph) (pswap : Rat) (samples : Nat → Rat) :
    RouteSetGraph × RouteSetGraph :=
  let c1 := p1.copy
  let c2 := p2.copy
  let nroutes := c1.nroutes
  let to_swap := (List.range nroutes).filter fun i => decide (samples i < pswap)
  to_swap.foldl crossoverStep (c1, c2)

end Thesis

namespace Thesis

/-- Road-duration table used by the concrete scenarios: every hop takes
60 seconds (in particular `duration(1, 2) = 60 ≠ 100`). -/
def durEx : Nat → Nat → Int := fun _ _ => 60

end Thesis

namespace Thesis

namespace RouteSetGraph

/-- Helper: `_add_stop` does not touch the dirty flag. -/
theorem addStop_rc (g : RouteSetGraph) (s : Nat) (r : Int) (k : Nat) :
    (g.addStop s r k).routes_changed = g.routes_changed := by
  unfold addStop
  dsimp only
  split <;> split <;> rfl

/-- Helper: `_add_route_edge` does not touch the dirty flag. -/
theorem addRouteEdge_rc (g : RouteSetGraph) (a b : Nat) (r : Int) (d : Int) :
    (g.addRouteEdge a b r d).routes_changed = g.routes_changed := by
  unfold addRouteEdge
  split <;> try rfl
  split <;> rfl

/-- Helper: `_update_last_node_references` does not touch the dirty flag. -/
theorem updateLastNodeReferences_rc (g : RouteSetGraph) (n : Nat) :
    (g.updateLastNodeReferences n).routes_changed = g.routes_changed := by
  unfold updateLastNodeReferences
  dsimp only
  split
  · rfl
  · split <;> rfl

/-- Helper: `_delete_stop` does not touch the dirty flag. -/
theorem deleteStop_rc (g : RouteSetGraph) (s : Nat) :
    (g.deleteStop s).routes_changed = g.routes_changed := by
  unfold deleteStop
  dsimp only
  split
  · rfl
  · split <;> simp [updateLastNodeReferences_rc]

/-- Helper: the `prepend_stop` seq loop does not touch the dirty flag. -/
theorem bumpSeqStep_rc (r : Int) (g : RouteSetGraph) (s : Nat) :
    (bumpSeqStep r g s).routes_changed = g.routes_changed := rfl

/-- Helper: the `remove_node` seq loop does not touch the dirty flag. -/
theorem decSeqStep_rc (r : Int) (g : RouteSetGraph) (s : Nat) :
    (decSeqStep r g s).routes_changed = g.routes_changed := rfl

/-- Helper: the `remove_route` loop body does not touch the dirty flag. -/
theorem removeRouteStep_rc (r : Int) (g : RouteSetGraph) (s : Nat) :
    (removeRouteStep r g s).routes_changed = g.routes_changed := by
  unfold removeRouteStep
  dsimp only
  split
  · split <;> simp [deleteStop_rc, updateLastNodeReferences_rc]
  · simp [updateLastNodeReferences_rc]

/-- Helper: a fold whose step preserves the dirty flag preserves it. -/
theorem foldl_preserves_rc {α : Type} {step : RouteSetGraph → α → RouteSetGraph}
    (l : List α) (g : RouteSetGraph)
    (h : ∀ gg a, (step gg a).routes_changed = gg.routes_changed) :
    (l.foldl step g).routes_changed = g.routes_changed := by
  induction l generalizing g with
  | nil => rfl
  | cons a t ih => rw [List.foldl_cons, ih, h]

/-- Helper: a fold whose step forces the dirty flag keeps it set. -/
theorem foldl_keeps_rc {α : Type} {step : RouteSetGraph → α → RouteSetGraph}
    (l : List α) (g : RouteSetGraph)
    (h : ∀ gg a, (step gg a).routes_changed = true)
    (hg : g.routes_changed = true) :
    (l.foldl step g).routes_changed = true := by
  induction l generalizing g with
  | nil => exact hg
  | cons a t ih => rw [List.foldl_cons]; exact ih _ (h g a)

/-- Helper: `append_stop` sets the dirty flag. -/
theorem appendStop_rc (g : RouteSetGraph) (s : Nat) (r : Int) :
    (g.appendStop s r).routes_changed = true := by
  unfold appendStop
  dsimp only
  split
  · exact addStop_rc _ _ _ _
  · rw [addRouteEdge_rc, addStop_rc]

/-- Helper: `prepend_stop` sets the dirty flag. -/
theorem prependStop_rc (g : RouteSetGraph) (dur : Nat → Nat → Int) (s : Nat) (r : Int) :
    (g.prependStop dur s r).routes_changed = true := by
  unfold prependStop
  dsimp only
  split <;>
    simp only [addRouteEdge_rc, foldl_preserves_rc _ _ (bumpSeqStep_rc r), addStop_rc]

/-- Helper: the tail of `remove_node` does not touch the dirty flag. -/
theorem removeNodeCore_rc (g : RouteSetGraph) (s : Nat) (r : Int) (seq : Nat)
    (route : List Nat) :
    (removeNodeCore g s r seq route).routes_changed = g.routes_changed := by
  unfold removeNodeCore
  dsimp only
  repeat' split
  all_goals simp only [deleteStop_rc, foldl_preserves_rc _ _ (decSeqStep_rc r),
    updateLastNodeReferences_rc]

/-- Helper: `remove_node` sets the dirty flag. -/
theorem removeNode_rc (g : RouteSetGraph) (s : Nat) (r : Int) :
    (g.removeNode s r).routes_changed = true := by
  unfold removeNode
  dsimp only
  rw [removeNodeCore_rc]
  repeat' split
  all_goals simp only [addRouteEdge_rc]

/-- Helper: `add_route` sets the dirty flag. -/
theorem addRoute_rc (g : RouteSetGraph) (route : List Nat) (rid : Option Int) :
    (g.addRoute route rid).routes_changed = true := by
  unfold addRoute
  dsimp only
  exact foldl_keeps_rc _ _ (fun gg a => appendStop_rc gg a _) rfl

/-- Helper: `remove_route` sets the dirty flag. -/
theorem removeRoute_rc (g : RouteSetGraph) (r : Int) :
    (g.removeRoute r).routes_changed = true := by
  unfold removeRoute
  dsimp only
  rw [foldl_preserves_rc _ _ (removeRouteStep_rc r)]

/-- Helper: `replace_route` sets the dirty flag. -/
theorem replaceRoute_rc (g : RouteSetGraph) (r : Int) (nr : List Nat) :
    (g.replaceRoute r nr).routes_changed = true := addRoute_rc _ _ _

end RouteSetGraph

/-- Helper: `get_fitness` always leaves the dirty flag cleared. -/
theorem getFitness_fst_rc (st : RouteSetGraph) (D : OdxData)
    (gdt : Nat → Nat → Option (Int × Int)) :
    (st.getFitness D gdt).1.routes_changed = false := by
  unfold RouteSetGraph.getFitness
  by_cases h : st.routes_changed <;> simp [h]

/-- C1: in `append_stop` the in-vehicle edge from the previous tail stop
gets weight `100 + BUS_STOP_TIME` — the hard-coded literal `100` replaces
the commented-out `Durations().get_duration(prev_sid, stop_id)` — so for
a duration table with `duration(1, 2) = 60` the produced weight `130`
differs from the specified `duration(1, 2) + BUS_STOP_TIME = 90`. -/
theorem C1_append_stop_constant_weight :
    (RouteSetGraph.empty.addRoute [1, 2] none).getEdge 1 2 0 =
      some ⟨2, 5, 100 + busStopTime⟩ ∧
    durEx 1 2 + busStopTime ≠ 100 + busStopTime := by decide

/-- C3: removing the head stop `1` of route `0 = [1, 2]` (stop `1` on no
other route) does remove it from the route, but the orphan cleanup is
skipped — the `stop` variable was rebound by the seq-update loop — so
stop `1` stays in the stop index with an empty `route_nodes` map and its
`O(1)`, `D(1)` vertices survive (5 vertices instead of 3). -/
theorem C3_remove_head_keeps_orphan_stop :
    (dget ((RouteSetGraph.empty.addRoute [1, 2] none).removeNode 1 0).routes 0 = some [2]) ∧
    (dget ((RouteSetGraph.empty.addRoute [1, 2] none).removeNode 1 0).stops 1 =
      some ⟨1, 0, 1, []⟩) ∧
    ((RouteSetGraph.empty.addRoute [1, 2] none).removeNode 1 0).gtG.numVertices = 5 ∧
    (dget ((RouteSetGraph.empty.addRoute [1, 2] none).removeNode 2 0).stops 2 = none) := by
  decide

/-- C4: `prepend_stop(3, 0)` followed by `remove_node(3, 0)` on the graph
with route `0 = [1, 2]` does not restore it: stop `3` stays in the stop
index with empty `route_nodes`, its `O(3)`, `D(3)` vertices survive
(8 vertices instead of 6) and `vertex_to_stop` keeps a stale entry at
slot 8; even `append_stop(3, 0)` + `remove_node(3, 0)` differs from the
original state because `vertex_to_stop` keeps entries for the removed
slots 6, 7, 8. -/
theorem C4_roundtrip_not_restored :
    (dget (((RouteSetGraph.empty.addRoute [1, 2] none).prependStop durEx 3 0).removeNode 3 0).routes 0 = some [1, 2]) ∧
    (dget (RouteSetGraph.empty.addRoute [1, 2] none).stops 3 = none) ∧
    (dget (((RouteSetGraph.empty.addRoute [1, 2] none).prependStop durEx 3 0).removeNode 3 0).stops 3 = some ⟨3, 6, 7, []⟩) ∧
    (((RouteSetGraph.empty.addRoute [1, 2] none).prependStop durEx 3 0).removeNode 3 0).gtG.numVertices =
      (RouteSetGraph.empty.addRoute [1, 2] none).gtG.numVertices + 2 ∧
    (dget (((RouteSetGraph.empty.addRoute [1, 2] none).prependStop durEx 3 0).removeNode 3 0).vertex_to_stop 8 = some ⟨3, 0⟩) ∧
    ((RouteSetGraph.empty.addRoute [1, 2] none).appendStop 3 0).removeNode 3 0 ≠
      RouteSetGraph.empty.addRoute [1, 2] none ∧
    (((RouteSetGraph.empty.addRoute [1, 2] none).appendStop 3 0).removeNode 3 0).gtG =
      (RouteSetGraph.empty.addRoute [1, 2] none).gtG ∧
    (((RouteSetGraph.empty.addRoute [1, 2] none).appendStop 3 0).removeNode 3 0).stops =
      (RouteSetGraph.empty.addRoute [1, 2] none).stops := by decide

/-- C9: every structural mutation (`add_route`, `append_stop`,
`prepend_stop`, `remove_node`, `remove_route`, `replace_route`) sets
`routes_changed`; `get_fitness` with the flag clear returns the stored
value without recomputation, with the flag set it returns the freshly
computed objective; `copy` preserves both the flag and the memoized
fitness value. -/
theorem C9_routes_changed_memoization (g : RouteSetGraph) (D : OdxData)
    (gdt : Nat → Nat → Option (Int × Int)) (dur : Nat → Nat → Int)
    (s : Nat) (rid : Int) (route new_route : List Nat) :
    (g.addRoute route none).routes_changed = true ∧
    (g.appendStop s rid).routes_changed = true ∧
    (g.prependStop dur s rid).routes_changed = true ∧
    (g.removeNode s rid).routes_changed = true ∧
    (g.removeRoute rid).routes_changed = true ∧
    (g.replaceRoute rid new_route).routes_changed = true ∧
    RouteSetGraph.getFitness { g with routes_changed := false } D gdt =
      ({ g with routes_changed := false }, g.fitness) ∧
    (RouteSetGraph.getFitness { g with routes_changed := true } D gdt).2 =
      (RouteSetGraph.computeFitness { g with routes_changed := true } D gdt).2 ∧
    g.copy.routes_changed = g.routes_changed ∧
    g.copy.fitness = g.fitness :=
  ⟨RouteSetGraph.addRoute_rc g route none, RouteSetGraph.appendStop_rc g s rid,
   RouteSetGraph.prependStop_rc g dur s rid, RouteSetGraph.removeNode_rc g s rid,
   RouteSetGraph.removeRoute_rc g rid, RouteSetGraph.replaceRoute_rc g rid new_route,
   rfl, rfl, rfl, rfl⟩

/-- C10: after an evaluation, the clone returns the same fitness from
`get_fitness` but its `get_report` returns `None` — `copy` transfers the
memoized `_fitness` but not `_report` — until a structural mutation
(here `append_stop`) makes `get_report` recompute. -/
theorem C10_copy_drops_report (st : RouteSetGraph) (D : OdxData)
    (gdt : Nat → Nat → Option (Int × Int)) (s : Nat) (rid : Int) :
    ((st.getFitness D gdt).1.copy.getFitness D gdt).2 = (st.getFitness D gdt).2 ∧
    ((st.getFitness D gdt).1.copy.getReport D gdt).2 = none ∧
    (((st.getFitness D gdt).1.copy.appendStop s rid).getReport D gdt).2 =
      some ((((st.getFitness D gdt).1.copy.appendStop s rid).computeFitness D gdt).1) := by
  have h1 : (st.getFitness D gdt).1.routes_changed = false := getFitness_fst_rc st D gdt
  have hcopy : (st.getFitness D gdt).1.copy.routes_changed = false := h1
  refine ⟨?_, ?_, ?_⟩
  · rw [RouteSetGraph.getFitness, if_neg (by simp [hcopy])]
    unfold RouteSetGraph.getFitness
    by_cases h : st.routes_changed <;> simp [h, RouteSetGraph.copy]
  · rw [RouteSetGraph.getReport]
    dsimp only
    rw [RouteSetGraph.getFitness, if_neg (by simp [hcopy])]
    rfl
  · have hrc := RouteSetGraph.appendStop_rc ((st.getFitness D gdt).1.copy) s rid
    rw [RouteSetGraph.getReport]
    dsimp only
    rw [RouteSetGraph.getFitness, if_pos hrc]

end Thesis

namespace Thesis

/-- Builder input where the heaviest pair `(1, 2)` (total 10) has no
road path while `(3, 4)` (total 5) has one. -/
def IA : InitInput :=
  { dsOrigins := [1, 3],
    dsDests := fun o => if o = 1 then [2] else if o = 3 then [4] else [],
    dsGet := fun o d => if o = 1 ∧ d = 2 then [(1, 2)] else if o = 3 ∧ d = 4 then [(3, 4)] else [],
    odx := fun m n => if m = 1 ∧ n = 2 then some 10 else if m = 3 ∧ n = 4 then some 5 else none,
    sp := fun o d => if o = 3 ∧ d = 4 then [3, 4] else [] }

/-- Builder input where `(1, 2)` (total 10) has the path `[1, 2]` and
`(3, 4)` (total 5) has none. -/
def IB : InitInput :=
  { dsOrigins := [1, 3],
    dsDests := fun o => if o = 1 then [2] else if o = 3 then [4] else [],
    dsGet := fun o d => if o = 1 ∧ d = 2 then [(1, 2)] else if o = 3 ∧ d = 4 then [(3, 4)] else [],
    odx := fun m n => if m = 1 ∧ n = 2 then some 10 else if m = 3 ∧ n = 4 then some 5 else none,
    sp := fun o d => if o = 1 ∧ d = 2 then [1, 2] else [] }

/-- C2: when `shortest_path` of the selected argmax pair is empty the
builder neither marks the pair invalid nor makes progress: on input `IA`
the no-path pair `(1, 2)` stays the argmax and the loop never returns,
whatever the fuel.  Moreover decrements are not applied exactly once:
on input `IB` the route for `(1, 2)` is built in the first iteration and
its `newly_satisfied` decrement of 10 is applied in the second iteration
(totals[(1,2)] = 0) — but, because the empty path of `(3, 4)` does not
clear `newly_satisfied`, it is applied again in the third iteration
(totals[(1,2)] = -10). -/
theorem C2_no_invalidation_and_double_decrement :
    (∀ fuel, get_initial_routeset IA 1 fuel = none) ∧
    dget (initRun IB 2 2 (initStart IB)).totals (1, 2) = some 0 ∧
    dget (initRun IB 2 3 (initStart IB)).totals (1, 2) = some (-10) := by
  refine ⟨?_, by decide, by decide⟩
  have hstep : initStep IA 1 (initStart IA) = some (Sum.inr (initStart IA)) := by decide
  intro fuel
  induction fuel with
  | zero => rfl
  | succ n ih =>
    show initLoop IA 1 (n + 1) (initStart IA) = none
    rw [initLoop, hstep]
    exact ih

end Thesis

namespace Thesis

/-- Helper: folding `set.add` insertions equals first-occurrence
deduplication past the already-seen prefix. -/
theorem foldl_sinsert_dedup [DecidableEq α] (l : List α) :
    ∀ seen : List α, l.foldl sinsert seen = seen ++ dedupKeepFirstAux seen l := by
  induction l with
  | nil => intro seen; simp [dedupKeepFirstAux]
  | cons x xs ih =>
    intro seen
    rw [List.foldl_cons, ih]
    by_cases hx : x ∈ seen
    · simp [sinsert, hx, dedupKeepFirstAux]
    · simp [sinsert, hx, dedupKeepFirstAux]

/-- Helper: the route-id set accumulated by the source's walk equals the
route ids collected along the specification-side marker walk. -/
theorem walkRidsAux_eq_markers (st : RouteSetGraph) (pred : Nat → Nat)
    (fs : Nat) :
    ∀ (fuel sid v : Nat) (acc : List Int),
      walkRidsAux st pred fs fuel sid v acc =
        (walkMarkers st pred fs fuel sid v).map
          (fun path => ((path.filter fun m => isRouteNode m).map (·.route_id)).foldl sinsert acc) := by
  intro fuel
  induction fuel with
  | zero => intro sid v acc; rfl
  | succ n ih =>
    intro sid v acc
    rw [walkRidsAux, walkMarkers]
    by_cases hsid : sid = fs
    · simp [hsid]
    · rw [if_neg hsid, if_neg hsid]
      cases hm : dget st.vertex_to_stop (pred v) with
      | none => rfl
      | some vts =>
        dsimp only
        rw [ih]
        cases hw : walkMarkers st pred fs n vts.stop_id (pred v) with
        | none => rfl
        | some path =>
          by_cases hr : isRouteNode vts
          · simp [hr, List.filter_cons, List.foldl_cons]
          · simp [hr, List.filter_cons]

/-- C6: for every served pair, `get_distances_transfers` reports
`dist − (transfers + 1) · BUS_STOP_TIME`, where `transfers` is the
number of distinct route ids of the route vertices on the reconstructed
predecessor path minus one (ORIGIN/DEST markers ignored) and `dist` is
the Dijkstra shortest distance from `O(o)` to `D(d)`. -/
theorem C6_distance_transfer_adjustment (st : RouteSetGraph)
    (pred : Nat → Nat) (fuel from_sid to_sid : Nat) (d0 dd nt : Int)
    (h : processTarget st pred from_sid fuel to_sid (some d0) = some (some (dd, nt))) :
    ∃ s path, dget st.stops to_sid = some s ∧
      walkMarkers st pred from_sid fuel to_sid s.destination_idx = some path ∧
      nt = (routeIdsOnPath path).length - 1 ∧
      dd = d0 - (nt + 1) * busStopTime := by
  unfold processTarget at h
  cases hs : dget st.stops to_sid with
  | none => rw [hs] at h; exact absurd h (by simp)
  | some s =>
    rw [hs] at h
    dsimp only at h
    cases hw : walkRidsAux st pred from_sid fuel to_sid s.destination_idx [] with
    | none => rw [hw] at h; exact absurd h (by simp)
    | some rids =>
      rw [hw] at h
      dsimp only at h
      rw [walkRidsAux_eq_markers] at hw
      cases hpath : walkMarkers st pred from_sid fuel to_sid s.destination_idx with
      | none => rw [hpath] at hw; exact absurd hw (by simp)
      | some path =>
        rw [hpath] at hw
        have hrids : rids = routeIdsOnPath path := by
          have h2 := Option.some.inj hw.symm
          rw [h2, routeIdsOnPath, dedupKeepFirst]
          dsimp only
          rw [foldl_sinsert_dedup]
          simp
        by_cases hnt : ((rids.length : Int) - 1) = -1
        · rw [if_pos hnt] at h; exact absurd h (by simp)
        · rw [if_neg hnt] at h
          have hpair := Option.some.inj (Option.some.inj h)
          have hnt2 : nt = (rids.length : Int) - 1 := (congrArg Prod.snd hpair).symm
          have hdd : dd = d0 - (busStopTime * ((rids.length : Int) - 1) + busStopTime) :=
            (congrArg Prod.fst hpair).symm
          refine ⟨s, path, rfl, hpath, ?_, ?_⟩
          · rw [hnt2, hrids]
          · rw [hdd, hnt2]; ring

/-- Predecessor map of the Dijkstra run on the two-stop route `[1, 2]`:
`D(2) = 4 ← R(2,0) = 5 ← R(1,0) = 2`. -/
def pred0 : Nat → Nat := fun v => if v = 4 then 5 else if v = 5 then 2 else 0

/-- C6 witness: on the routeset `[1, 2]` with Dijkstra distance 190 the
reported travel time is `190 − (0 + 1) · 30 = 160` with 0 transfers. -/
theorem C6_distance_transfer_adjustment_witness :
    ∃ s path,
      dget (RouteSetGraph.empty.addRoute [1, 2] none).stops 2 = some s ∧
      walkMarkers (RouteSetGraph.empty.addRoute [1, 2] none) pred0 1 3 2
        s.destination_idx = some path ∧
      (0 : Int) = (routeIdsOnPath path).length - 1 ∧
      (160 : Int) = 190 - (0 + 1) * busStopTime :=
  C6_distance_transfer_adjustment (RouteSetGraph.empty.addRoute [1, 2] none)
    pred0 3 1 2 190 160 0 (by decide)

end Thesis

namespace Thesis

/-- Helper: a sum over a filtered list as a sum of guarded terms. -/
theorem sum_map_filter (p : Nat → Bool) (f : Nat → Int) (l : List Nat) :
    ((l.filter p).map f).sum = (l.map fun x => if p x then f x else 0).sum := by
  induction l with
  | nil => rfl
  | cons x xs ih =>
    by_cases hx : p x <;> simp [List.filter_cons, hx, ih]

/-- Helper: sums of pointwise-added maps split. -/
theorem sum_map_add_fn (f g : Nat → Int) (l : List Nat) :
    (l.map fun x => f x + g x).sum = (l.map f).sum + (l.map g).sum := by
  induction l with
  | nil => rfl
  | cons x xs ih => simp [ih]; ring

/-- Helper: rewriting a map under a pointwise function equality. -/
theorem map_eq_of_fn_eq {α β : Type} (f g : α → β) (l : List α)
    (h : ∀ x, f x = g x) : l.map f = l.map g := by
  rw [funext h]

/-- Helper: how one result-loop step moves the four accumulator fields
that feed the objective value. -/
theorem destProcess_fields (D : OdxData) (gdt : Nat → Nat → Option (Int × Int))
    (o : Nat) (acc : FitAcc) (d : Nat) :
    (fitnessDestProcess D gdt o acc d).TT
        = acc.TT + (match gdt o d with | some q => q.1 * D.odx o d | none => 0) ∧
    (fitnessDestProcess D gdt o acc d).TTR
        = acc.TTR + (match gdt o d with | some q => q.2 * D.odx o d | none => 0) ∧
    (fitnessDestProcess D gdt o acc d).travel_times
        = acc.travel_times ++ ((gdt o d).map (·.1)).toList ∧
    (fitnessDestProcess D gdt o acc d).unsat_demand
        = acc.unsat_demand +
          (match gdt o d with
           | none => D.odx o d
           | some q => if q.2 > 2 then D.odx o d else 0) := by
  unfold fitnessDestProcess
  cases hg : gdt o d with
  | none => simp
  | some q =>
    dsimp only
    by_cases hq : q.2 > 2 <;> simp [hq]

/-- Helper: the result loop of `_compute_fitness` over a destination
list, characterised field by field. -/
theorem destProcess_foldl (D : OdxData) (gdt : Nat → Nat → Option (Int × Int))
    (o : Nat) (ds : List Nat) :
    ∀ acc : FitAcc,
      (ds.foldl (fitnessDestProcess D gdt o) acc).TT
          = acc.TT + (ds.map fun d =>
              match gdt o d with | some q => q.1 * D.odx o d | none => 0).sum ∧
      (ds.foldl (fitnessDestProcess D gdt o) acc).TTR
          = acc.TTR + (ds.map fun d =>
              match gdt o d with | some q => q.2 * D.odx o d | none => 0).sum ∧
      (ds.foldl (fitnessDestProcess D gdt o) acc).travel_times
          = acc.travel_times ++ (ds.filterMap fun d => (gdt o d).map (·.1)) ∧
      (ds.foldl (fitnessDestProcess D gdt o) acc).unsat_demand
          = acc.unsat_demand + (ds.map fun d =>
              match gdt o d with
              | none => D.odx o d
              | some q => if q.2 > 2 then D.odx o d else 0).sum := by
  induction ds with
  | nil => intro acc; simp
  | cons d ds ih =>
    intro acc
    obtain ⟨h1, h2, h3, h4⟩ := destProcess_fields D gdt o acc d
    obtain ⟨i1, i2, i3, i4⟩ := ih (fitnessDestProcess D gdt o acc d)
    refine ⟨?_, ?_, ?_, ?_⟩
    · rw [List.foldl_cons, i1, h1]; simp [add_assoc]
    · rw [List.foldl_cons, i2, h2]; simp [add_assoc]
    · rw [List.foldl_cons, i3, h3]
      cases hg : gdt o d <;> simp [List.filterMap_cons, hg]
    · rw [List.foldl_cons, i4, h4]; simp [add_assoc]

/-- Helper: the classification loop of `_compute_fitness` builds exactly
the served-destination list and contributes only absent-stop demand. -/
theorem destClassify_foldl (D : OdxData) (st : RouteSetGraph) (o : Nat)
    (ds : List Nat) :
    ∀ (acc : FitAcc) (l : List Nat),
      (ds.foldl (fitnessDestClassify D st o) (acc, l)).2
          = l ++ ds.filter (fun d => (dget st.stops d).isSome) ∧
      (ds.foldl (fitnessDestClassify D st o) (acc, l)).1.TT = acc.TT ∧
      (ds.foldl (fitnessDestClassify D st o) (acc, l)).1.TTR = acc.TTR ∧
      (ds.foldl (fitnessDestClassify D st o) (acc, l)).1.travel_times
          = acc.travel_times ∧
      (ds.foldl (fitnessDestClassify D st o) (acc, l)).1.unsat_demand
          = acc.unsat_demand + (ds.map fun d =>
              if (dget st.stops d).isNone then D.odx o d else 0).sum := by
  induction ds with
  | nil => intro acc l; simp
  | cons d ds ih =>
    intro acc l
    rw [List.foldl_cons]
    by_cases hd : (dget st.stops d).isSome
    · obtain ⟨v, hv⟩ := Option.isSome_iff_exists.mp hd
      have hstep : fitnessDestClassify D st o (acc, l) d
          = ({ acc with sat_stops := sinsert acc.sat_stops d }, l ++ [d]) := by
        unfold fitnessDestClassify
        simp [hv]
      rw [hstep]
      obtain ⟨i1, i2, i3, i4, i5⟩ := ih ({ acc with sat_stops := sinsert acc.sat_stops d }) (l ++ [d])
      refine ⟨?_, i2, i3, i4, ?_⟩
      · rw [i1]; simp [List.filter_cons, hd]
      · rw [i5]; simp [hv]
    · have hv : dget st.stops d = none := Option.not_isSome_iff_eq_none.mp hd
      have hstep : fitnessDestClassify D st o (acc, l) d
          = ({ acc with unsat_stops := sinsert acc.unsat_stops d, unsat_od := sinsert acc.unsat_od (o, d), unsat_demand := acc.unsat_demand + D.odx o d }, l) := by
        unfold fitnessDestClassify
        simp [hv]
      rw [hstep]
      obtain ⟨i1, i2, i3, i4, i5⟩ := ih ({ acc with unsat_stops := sinsert acc.unsat_stops d, unsat_od := sinsert acc.unsat_od (o, d), unsat_demand := acc.unsat_demand + D.odx o d }) l
      refine ⟨?_, i2, i3, i4, ?_⟩
      · rw [i1]; simp [List.filter_cons, hv]
      · rw [i5]; simp [hv, add_assoc]

/-- Helper: one per-origin iteration of `_compute_fitness` adds exactly
the per-origin contributions of the specification quantities. -/
theorem fitnessOrigin_fields (D : OdxData) (st : RouteSetGraph)
    (gdt : Nat → Nat → Option (Int × Int)) (acc : FitAcc) (o : Nat) :
    (fitnessOrigin D st gdt acc o).TT
        = acc.TT + (if (dget st.stops o).isNone then 0 else oTT D st gdt o) ∧
    (fitnessOrigin D st gdt acc o).TTR
        = acc.TTR + (if (dget st.stops o).isNone then 0 else oTTR D st gdt o) ∧
    (fitnessOrigin D st gdt acc o).travel_times
        = acc.travel_times ++ (if (dget st.stops o).isNone then [] else oTTs D st gdt o) ∧
    (fitnessOrigin D st gdt acc o).unsat_demand
        = acc.unsat_demand + oTU D st gdt o := by
  unfold fitnessOrigin
  by_cases ho : (dget st.stops o).isNone
  · rw [if_pos ho]
    refine ⟨by simp [ho], by simp [ho], by simp [ho], ?_⟩
    dsimp only
    rw [oTU, if_pos ho]
  · rw [if_neg ho]
    dsimp only
    obtain ⟨c1, c2, c3, c4, c5⟩ :=
      destClassify_foldl D st o (D.dests o) ({ acc with sat_stops := sinsert acc.sat_stops o }) []
    obtain ⟨p1, p2, p3, p4⟩ :=
      destProcess_foldl D gdt o ((D.dests o).foldl (fitnessDestClassify D st o) ({ acc with sat_stops := sinsert acc.sat_stops o }, [])).2
        ((D.dests o).foldl (fitnessDestClassify D st o) ({ acc with sat_stops := sinsert acc.sat_stops o }, [])).1
    refine ⟨?_, ?_, ?_, ?_⟩
    · rw [p1, c2, c1, if_neg ho, oTT, servedDests]; simp
    · rw [p2, c3, c1, if_neg ho, oTTR, servedDests]; simp
    · rw [p3, c4, c1, if_neg ho, oTTs, servedDests]; simp
    · rw [p4, c5, c1, oTU, if_neg ho]
      rw [List.nil_append, sum_map_filter]
      rw [add_assoc, ← sum_map_add_fn]
      apply congrArg (fun z => _ + z)
      apply congrArg List.sum
      apply map_eq_of_fn_eq
      intro d
      by_cases hd : (dget st.stops d).isSome
      · obtain ⟨v, hv⟩ := Option.isSome_iff_exists.mp hd
        simp [hv]
      · have hv : dget st.stops d = none := Option.not_isSome_iff_eq_none.mp hd
        simp [hv]

/-- Helper: the full per-origin loop of `_compute_fitness` accumulates
the four specification quantities. -/
theorem fitnessOrigin_foldl (D : OdxData) (st : RouteSetGraph)
    (gdt : Nat → Nat → Option (Int × Int)) (os : List Nat) :
    ∀ acc : FitAcc,
      (os.foldl (fitnessOrigin D st gdt) acc).TT
          = acc.TT + ((os.filter fun o => (dget st.stops o).isSome).map (oTT D st gdt)).sum ∧
      (os.foldl (fitnessOrigin D st gdt) acc).TTR
          = acc.TTR + ((os.filter fun o => (dget st.stops o).isSome).map (oTTR D st gdt)).sum ∧
      (os.foldl (fitnessOrigin D st gdt) acc).travel_times
          = acc.travel_times ++ (os.filter fun o => (dget st.stops o).isSome).flatMap (oTTs D st gdt) ∧
      (os.foldl (fitnessOrigin D st gdt) acc).unsat_demand
          = acc.unsat_demand + (os.map (oTU D st gdt)).sum := by
  induction os with
  | nil => intro acc; simp
  | cons o os ih =>
    intro acc
    rw [List.foldl_cons]
    obtain ⟨h1, h2, h3, h4⟩ := fitnessOrigin_fields D st gdt acc o
    obtain ⟨i1, i2, i3, i4⟩ := ih (fitnessOrigin D st gdt acc o)
    by_cases ho : (dget st.stops o).isSome
    · have ho2 : (dget st.stops o).isNone = false := by
        obtain ⟨v, hv⟩ := Option.isSome_iff_exists.mp ho
        simp [hv]
      refine ⟨?_, ?_, ?_, ?_⟩
      · rw [i1, h1, ho2, List.filter_cons, if_pos ho]; simp [add_assoc]
      · rw [i2, h2, ho2, List.filter_cons, if_pos ho]; simp [add_assoc]
      · rw [i3, h3, ho2, List.filter_cons, if_pos ho]; simp
      · rw [i4, h4]; simp [add_assoc]
    · have ho2 : (dget st.stops o).isNone = true := by
        simp [Option.not_isSome_iff_eq_none.mp ho]
      refine ⟨?_, ?_, ?_, ?_⟩
      · rw [i1, h1, ho2, List.filter_cons, if_neg ho]; simp
      · rw [i2, h2, ho2, List.filter_cons, if_neg ho]; simp
      · rw [i3, h3, ho2, List.filter_cons, if_neg ho]; simp
      · rw [i4, h4]; simp [add_assoc]

/-- C5: the evaluator returns `F = TT + TTR + TU · w2` with
`w2 = ATT + 3000` seconds, where `ATT` is the mean travel time over all
successfully reconstructed paths — including paths with more than two
transfers (their times are in `specTravelTimes`) — even though the
demand of those paths is counted in `TU` (`oTU` counts `q.2 > 2`) as
unsatisfied. -/
theorem C5_fitness_formula (D : OdxData) (st : RouteSetGraph)
    (gdt : Nat → Nat → Option (Int × Int))
    (h : specTravelTimes D st gdt ≠ []) :
    (st.computeFitness D gdt).2 =
      (specTT D st gdt : Rat) + (specTTR D st gdt : Rat) +
        (specTU D st gdt : Rat) *
          (((specTravelTimes D st gdt).sum : Rat) /
            ((specTravelTimes D st gdt).length : Rat) + 3000) := by
  obtain ⟨h1, h2, h3, h4⟩ :=
    fitnessOrigin_foldl D st gdt D.origins FitAcc.init
  unfold RouteSetGraph.computeFitness
  dsimp only
  rw [h1, h2, h3, h4]
  simp only [FitAcc.init, List.nil_append, zero_add]
  rw [← specTT, ← specTTR, ← specTU, ← specTravelTimes]
  norm_num [w2Offset]

/-- Demand table of the C5 witness: one pair `(1, 2)` with demand 10. -/
def odxEx : OdxData :=
  { origins := [1], dests := fun o => if o = 1 then [2] else [], odx := fun _ _ => 10 }

/-- Shortest-path oracle of the C5 witness: distance 190, no transfer. -/
def gdtEx : Nat → Nat → Option (Int × Int) := fun _ _ => some (190, 0)

/-- C5 witness: the routeset `[1, 2]` serving the single demand pair. -/
theorem C5_fitness_formula_witness :
    specTravelTimes odxEx (RouteSetGraph.empty.addRoute [1, 2] none) gdtEx ≠ [] ∧
    ((RouteSetGraph.empty.addRoute [1, 2] none).computeFitness odxEx gdtEx).2 =
      (specTT odxEx (RouteSetGraph.empty.addRoute [1, 2] none) gdtEx : Rat) +
        (specTTR odxEx (RouteSetGraph.empty.addRoute [1, 2] none) gdtEx : Rat) +
        (specTU odxEx (RouteSetGraph.empty.addRoute [1, 2] none) gdtEx : Rat) *
          (((specTravelTimes odxEx (RouteSetGraph.empty.addRoute [1, 2] none) gdtEx).sum : Rat) /
            ((specTravelTimes odxEx (RouteSetGraph.empty.addRoute [1, 2] none) gdtEx).length : Rat) + 3000) :=
  ⟨by decide, C5_fitness_formula odxEx (RouteSetGraph.empty.addRoute [1, 2] none) gdtEx (by decide)⟩

end Thesis

namespace Thesis

/-- Helper: lookup in the empty dict. -/
theorem dget_nil [DecidableEq α] (k : α) : dget ([] : Dict α β) k = none := rfl

/-- Helper: lookup on a cons cell. -/
theorem dget_cons [DecidableEq α] (p : α × β) (t : Dict α β) (k : α) :
    dget (p :: t) k = if p.1 = k then some p.2 else dget t k := by
  unfold dget
  rw [List.find?_cons]
  by_cases h : p.1 = k <;> simp [h]

/-- Helper: the membership test of `dset` seen through `dget`. -/
theorem find_isSome_dget [DecidableEq α] (d : Dict α β) (k : α) :
    (d.find? fun p => decide (p.1 = k)).isSome = (dget d k).isSome := by
  unfold dget
  cases List.find? (fun p => decide (p.1 = k)) d <;> rfl

/-- Helper: lookup after an in-place value update. -/
theorem dget_dmodify [DecidableEq α] (d : Dict α β) (k k' : α) (f : β → β) :
    dget (dmodify d k f) k' =
      if k' = k then (dget d k').map f else dget d k' := by
  induction d with
  | nil =>
    by_cases h : k' = k <;> simp [dmodify, dget_nil, h]
  | cons p t ih =>
    have hmod : dmodify (p :: t) k f
        = (if p.1 = k then (p.1, f p.2) else p) :: dmodify t k f := rfl
    rw [hmod]
    by_cases hp : p.1 = k
    · rw [if_pos hp, dget_cons, dget_cons]
      by_cases hk : k' = k
      · subst hk
        simp [hp, ih]
      · have h1 : ¬ (p.1 = k') := fun h2 => hk (by rw [← h2, hp])
        simp [h1, ih, hk]
    · rw [if_neg hp, dget_cons, dget_cons]
      by_cases hpk : p.1 = k'
      · by_cases hk : k' = k
        · exact absurd (hk ▸ hpk) hp
        · simp [hpk, hk]
      · simp [hpk, ih]

/-- Helper: replacing key `k` leaves other lookups unchanged. -/
theorem dget_map_replace_ne [DecidableEq α] (t : Dict α β) (k k' : α) (v : β)
    (h : ¬ k' = k) :
    dget (t.map fun p => if p.1 = k then (k, v) else p) k' = dget t k' := by
  induction t with
  | nil => rfl
  | cons p t ih =>
    rw [List.map_cons, dget_cons, dget_cons]
    by_cases hp : p.1 = k
    · have h1 : ¬ (k = k') := fun h2 => h h2.symm
      have h2 : ¬ (p.1 = k') := fun h3 => h (by rw [← h3, hp])
      simp [hp, h1, h2, ih]
    · simp [hp, ih]

/-- Helper: replacing a present key is observed by its lookup. -/
theorem dget_map_replace_self [DecidableEq α] (t : Dict α β) (k : α) (v : β)
    (h : (dget t k).isSome) :
    dget (t.map fun p => if p.1 = k then (k, v) else p) k = some v := by
  induction t with
  | nil => simp [dget_nil] at h
  | cons p t ih =>
    rw [List.map_cons, dget_cons]
    by_cases hp : p.1 = k
    · simp [hp]
    · rw [dget_cons] at h
      rw [if_neg hp] at h
      simp [hp, ih h]

/-- Helper: appending a fresh entry leaves other lookups unchanged. -/
theorem dget_append_single_ne [DecidableEq α] (d : Dict α β) (k k' : α) (v : β)
    (h : ¬ k' = k) :
    dget (d ++ [(k, v)]) k' = dget d k' := by
  induction d with
  | nil =>
    rw [List.nil_append, dget_cons]
    have h1 : ¬ (k = k') := fun h2 => h h2.symm
    simp [h1, dget_nil]
  | cons p t ih =>
    rw [List.cons_append, dget_cons, dget_cons, ih]

/-- Helper: appending a fresh entry is observed by its lookup. -/
theorem dget_append_single_self [DecidableEq α] (d : Dict α β) (k : α) (v : β)
    (h : ¬ (dget d k).isSome) :
    dget (d ++ [(k, v)]) k = some v := by
  induction d with
  | nil => simp [dget_cons]
  | cons p t ih =>
    rw [List.cons_append, dget_cons]
    rw [dget_cons] at h
    by_cases hp : p.1 = k
    · rw [if_pos hp] at h; simp at h
    · rw [if_neg hp] at h
      simp [hp, ih h]

/-- Helper: lookup after `d[k] = v`. -/
theorem dget_dset [DecidableEq α] (d : Dict α β) (k k' : α) (v : β) :
    dget (dset d k v) k' = if k' = k then some v else dget d k' := by
  unfold dset
  rw [find_isSome_dget]
  by_cases hc : (dget d k).isSome
  · rw [if_pos hc]
    by_cases hk : k' = k
    · subst hk; rw [if_pos rfl]; exact dget_map_replace_self d k' v hc
    · rw [if_neg hk]; exact dget_map_replace_ne d k k' v hk
  · rw [if_neg hc]
    by_cases hk : k' = k
    · subst hk; rw [if_pos rfl]; exact dget_append_single_self d k' v hc
    · rw [if_neg hk]; exact dget_append_single_ne d k k' v hk

/-- Helper: lookup after `del d[k]`. -/
theorem dget_ddel [DecidableEq α] (d : Dict α β) (k k' : α) :
    dget (ddel d k) k' = if k' = k then none else dget d k' := by
  induction d with
  | nil => by_cases hk : k' = k <;> simp [ddel, dget_nil, hk]
  | cons p t ih =>
    by_cases hp : p.1 = k
    · have hdel : ddel (p :: t) k = ddel t k := by
        simp [ddel, List.filter_cons, hp]
      rw [hdel, ih, dget_cons]
      by_cases hk : k' = k
      · simp [hk]
      · have h2 : ¬ (p.1 = k') := fun h3 => hk (by rw [← h3, hp])
        simp [h2, hk]
    · have hdel : ddel (p :: t) k = p :: ddel t k := by
        simp [ddel, List.filter_cons, hp]
      rw [hdel, dget_cons, dget_cons, ih]
      by_cases hpk : p.1 = k'
      · by_cases hk : k' = k
        · exact absurd (hk ▸ hpk) hp
        · simp [hpk, hk]
      · simp [hpk]

end Thesis

namespace Thesis

namespace RouteSetGraph

/-- Helper: the directory rewrite never touches the graph itself. -/
theorem updateLastNodeReferences_gtG (g : RouteSetGraph) (n : Nat) :
    (g.updateLastNodeReferences n).gtG = g.gtG := by
  unfold updateLastNodeReferences
  dsimp only
  split
  · rfl
  · split <;> rfl

/-- Helper: the seq-update loop never touches the graph. -/
theorem decSeqStep_gtG (r : Int) (g : RouteSetGraph) (s : Nat) :
    (decSeqStep r g s).gtG = g.gtG := rfl

/-- Helper: a fold whose step preserves the graph preserves it. -/
theorem foldl_preserves_gtG {α : Type} {step : RouteSetGraph → α → RouteSetGraph}
    (l : List α) (g : RouteSetGraph)
    (h : ∀ gg a, (step gg a).gtG = gg.gtG) :
    (l.foldl step g).gtG = g.gtG := by
  induction l generalizing g with
  | nil => rfl
  | cons a t ih => rw [List.foldl_cons, ih, h]

/-- Helper: nonemptiness of a stop's `route_nodes` survives the
directory rewrite of `_update_last_node_references`. -/
theorem updateLastNodeReferences_keeps_nonempty (g : RouteSetGraph) (n k : Nat)
    (s : Stop) (hs : dget g.stops k = some s) (hne : s.route_nodes ≠ []) :
    ∃ s2, dget (g.updateLastNodeReferences n).stops k = some s2 ∧
      s2.route_nodes ≠ [] := by
  unfold updateLastNodeReferences
  dsimp only
  split
  · exact ⟨s, hs, hne⟩
  · split
    · exact ⟨s, hs, hne⟩
    · rename_i sm heq
      dsimp only
      rw [dget_dmodify]
      by_cases hk : k = sm.stop_id
      · rw [if_pos hk, hs]
        refine ⟨_, rfl, ?_⟩
        dsimp only
        split
        · exact hne
        · split
          · exact hne
          · dsimp only
            unfold dmodify
            intro hnil
            exact hne (List.map_eq_nil_iff.mp hnil)
      · rw [if_neg hk]
        exact ⟨s, hs, hne⟩

/-- Helper: nonemptiness of a stop's `route_nodes` survives one
seq-update step. -/
theorem decSeqStep_keeps_nonempty (r : Int) (g : RouteSetGraph) (a k : Nat)
    (s : Stop) (hs : dget g.stops k = some s) (hne : s.route_nodes ≠ []) :
    ∃ s2, dget (decSeqStep r g a).stops k = some s2 ∧ s2.route_nodes ≠ [] := by
  unfold decSeqStep
  dsimp only
  rw [dget_dmodify]
  by_cases hk : k = a
  · rw [if_pos hk, hs]
    refine ⟨_, rfl, ?_⟩
    dsimp only
    unfold dmodify
    intro hnil
    exact hne (List.map_eq_nil_iff.mp hnil)
  · rw [if_neg hk]
    exact ⟨s, hs, hne⟩

/-- Helper: nonemptiness of a stop's `route_nodes` survives the whole
seq-update loop. -/
theorem foldl_decSeqStep_keeps_nonempty (r : Int) (l : List Nat) :
    ∀ (g : RouteSetGraph) (k : Nat) (s : Stop),
      dget g.stops k = some s → s.route_nodes ≠ [] →
      ∃ s2, dget ((l.foldl (decSeqStep r) g)).stops k = some s2 ∧
        s2.route_nodes ≠ [] := by
  induction l with
  | nil => intro g k s hs hne; exact ⟨s, hs, hne⟩
  | cons a t ih =>
    intro g k s hs hne
    rw [List.foldl_cons]
    obtain ⟨s2, hs2, hne2⟩ := decSeqStep_keeps_nonempty r g a k s hs hne
    exact ih _ k s2 hs2 hne2

/-- Helper: `_add_route_edge` under successful lookups is exactly one
graph-edge insertion between the two route vertices. -/
theorem addRouteEdge_eq (g : RouteSetGraph) (a b : Nat) (r : Int) (w : Int)
    (fs ts : Stop) (fn tn : RouteNode)
    (hfs : dget g.stops a = some fs) (hts : dget g.stops b = some ts)
    (hfn : dget fs.route_nodes r = some fn) (htn : dget ts.route_nodes r = some tn) :
    g.addRouteEdge a b r w =
      { g with gtG := g.gtG.addEdge fn.vertex_idx tn.vertex_idx w } := by
  unfold addRouteEdge
  rw [hfs, hts]
  dsimp only
  rw [hfn, htn]

/-- Helper: when the (mislocated) orphan check sees a stop that still
has route vertices, the tail of `remove_node` changes the graph exactly
by the fast removal of the deleted route vertex. -/
theorem removeNodeCore_gtG (g : RouteSetGraph) (sid : Nat) (rid : Int)
    (seq : Nat) (route : List Nat) (sk sl : Stop) (rnk : RouteNode)
    (hsk : dget g.stops sid = some sk)
    (hrnk : dget sk.route_nodes rid = some rnk)
    (hcs : dget g.stops (((route.drop (seq + 1)).getLast?).getD sid) = some sl)
    (hslne : sl.route_nodes ≠ [])
    (hcsne : ((route.drop (seq + 1)).getLast?).getD sid ≠ sid) :
    (removeNodeCore g sid rid seq route).gtG
      = g.gtG.removeVertexFast rnk.vertex_idx := by
  unfold removeNodeCore
  dsimp only
  rw [hsk]
  simp only [Option.some_bind, hrnk, Option.map_some', Option.getD_some]
  obtain ⟨s2, hs2, hne2⟩ :=
    updateLastNodeReferences_keeps_nonempty g rnk.vertex_idx _ sl hcs hslne
  set u := g.updateLastNodeReferences rnk.vertex_idx with hu
  obtain ⟨s3, hs3, hne3⟩ :=
    foldl_decSeqStep_keeps_nonempty rid (route.drop (seq + 1))
      ({ u with gtG := u.gtG.removeVertexFast rnk.vertex_idx,
                stops := dmodify u.stops sid
                  (fun st => { st with route_nodes := ddel st.route_nodes rid }) })
      (((route.drop (seq + 1)).getLast?).getD sid) s2
      (by dsimp only; rw [dget_dmodify, if_neg hcsne, hs2]) hne2
  rw [hs3]
  dsimp only
  rw [if_neg hne3]
  rw [foldl_preserves_gtG _ _ (decSeqStep_gtG rid)]
  rw [hu, updateLastNodeReferences_gtG]

end RouteSetGraph

end Thesis

namespace Thesis

/-- Helper: `get_edge` ignores the dirty flag. -/
theorem getEdge_rcSet (g : RouteSetGraph) (b : Bool) (x y : Nat) (r : Int) :
    RouteSetGraph.getEdge { g with routes_changed := b } x y r = g.getEdge x y r := rfl

/-- C7: removing an interior stop `route[k]` (1 ≤ k ≤ |route|−2) from
route `rid` adds a splice edge from `R(route[k−1], rid)` to
`R(route[k+1], rid)` with weight `w1 + w2 − BUS_STOP_TIME`, where `w1`
and `w2` are the weights of the two adjacent in-vehicle edges; the
`if … numVertices - 1` renaming accounts for graph-tool moving the
top-indexed vertex into the removed slot. -/
theorem C7_interior_splice (g : RouteSetGraph) (rid : Int) (route : List Nat)
    (k : Nat) (sk sa sb sl : Stop) (rnk rna rnb : RouteNode) (e1 e2 : GtEdge)
    (hroute : dget g.routes rid = some route)
    (hk1 : 0 < k) (hk2 : k + 1 < route.length)
    (hsk : dget g.stops (route.getD k 0) = some sk)
    (hrnk : dget sk.route_nodes rid = some rnk)
    (hseq : rnk.stop_seq = k)
    (hsa : dget g.stops (route.getD (k - 1) 0) = some sa)
    (hrna : dget sa.route_nodes rid = some rna)
    (hsb : dget g.stops (route.getD (k + 1) 0) = some sb)
    (hrnb : dget sb.route_nodes rid = some rnb)
    (he1 : g.getEdge (route.getD (k - 1) 0) (route.getD k 0) rid = some e1)
    (he2 : g.getEdge (route.getD k 0) (route.getD (k + 1) 0) rid = some e2)
    (hcs : dget g.stops (((route.drop (k + 1)).getLast?).getD (route.getD k 0)) = some sl)
    (hslne : sl.route_nodes ≠ [])
    (hcsne : ((route.drop (k + 1)).getLast?).getD (route.getD k 0) ≠ route.getD k 0)
    (hva : rna.vertex_idx ≠ rnk.vertex_idx)
    (hvb : rnb.vertex_idx ≠ rnk.vertex_idx) :
    (⟨(if rna.vertex_idx = g.gtG.numVertices - 1 then rnk.vertex_idx else rna.vertex_idx),
      (if rnb.vertex_idx = g.gtG.numVertices - 1 then rnk.vertex_idx else rnb.vertex_idx),
      e1.dur + e2.dur - busStopTime⟩ : GtEdge)
      ∈ ((g.removeNode (route.getD k 0) rid).gtG).edges := by
  unfold RouteSetGraph.removeNode
  dsimp only
  rw [hroute]
  simp only [Option.getD_some, hsk, Option.some_bind, hrnk, Option.map_some', hseq]
  have hcond : k > 0 ∧ k < route.length - 1 := ⟨hk1, by omega⟩
  rw [if_pos hcond]
  simp only [getEdge_rcSet]
  rw [he1, he2]
  dsimp only
  rw [RouteSetGraph.addRouteEdge_eq ({ g with routes_changed := true }) _ _ _ _ sa sb rna rnb hsa hsb hrna hrnb]
  rw [RouteSetGraph.removeNodeCore_gtG
    ({ ({ g with routes_changed := true } : RouteSetGraph) with
        gtG := ({ g with routes_changed := true } : RouteSetGraph).gtG.addEdge
          rna.vertex_idx rnb.vertex_idx (e1.dur + e2.dur - busStopTime) })
    (route.getD k 0) rid k route sk sl rnk hsk hrnk hcs hslne hcsne]
  unfold GtGraph.addEdge GtGraph.removeVertexFast
  dsimp only
  apply List.mem_map.mpr
  refine ⟨⟨rna.vertex_idx, rnb.vertex_idx, e1.dur + e2.dur - busStopTime⟩, ?_, rfl⟩
  apply List.mem_filter.mpr
  constructor
  · exact List.mem_append_right _ (List.mem_singleton.mpr rfl)
  · simp [hva, hvb]

end Thesis

namespace Thesis

/-- C7 witness: removing the interior stop 2 of route `[1, 2, 3]`
creates the splice edge `R(1,0) → R(3,0)` with weight
`130 + 130 − 30 = 230`. -/
theorem C7_interior_splice_witness :
    (⟨2, 5, 230⟩ : GtEdge) ∈ ((RouteSetGraph.empty.addRoute [1, 2, 3] none).removeNode 2 0).gtG.edges := by
  have h := C7_interior_splice (RouteSetGraph.empty.addRoute [1, 2, 3] none) 0 [1, 2, 3] 1
    ⟨2, 3, 4, [(0, ⟨0, 1, 5⟩)]⟩ ⟨1, 0, 1, [(0, ⟨0, 0, 2⟩)]⟩ ⟨3, 6, 7, [(0, ⟨0, 2, 8⟩)]⟩ ⟨3, 6, 7, [(0, ⟨0, 2, 8⟩)]⟩
    ⟨0, 1, 5⟩ ⟨0, 0, 2⟩ ⟨0, 2, 8⟩ ⟨2, 5, 130⟩ ⟨5, 8, 130⟩
    (by decide) (by decide) (by decide) (by decide) (by decide) (by decide)
    (by decide) (by decide) (by decide) (by decide) (by decide) (by decide)
    (by decide) (by decide) (by decide) (by decide) (by decide)
  exact h

end Thesis

namespace Thesis

namespace RouteSetGraph

/-- Helper: the directory rewrite never touches the route lists. -/
theorem updateLastNodeReferences_routes (g : RouteSetGraph) (n : Nat) :
    (g.updateLastNodeReferences n).routes = g.routes := by
  unfold updateLastNodeReferences
  dsimp only
  split
  · rfl
  · split <;> rfl

/-- Helper: `_delete_stop` never touches the route lists. -/
theorem deleteStop_routes (g : RouteSetGraph) (s : Nat) :
    (g.deleteStop s).routes = g.routes := by
  unfold deleteStop
  dsimp only
  split
  · rfl
  · split <;> simp [updateLastNodeReferences_routes]

/-- Helper: the `remove_route` loop body never touches the route lists. -/
theorem removeRouteStep_routes (r : Int) (g : RouteSetGraph) (s : Nat) :
    (removeRouteStep r g s).routes = g.routes := by
  unfold removeRouteStep
  dsimp only
  split
  · split <;> simp [deleteStop_routes, updateLastNodeReferences_routes]
  · simp [updateLastNodeReferences_routes]

/-- Helper: a fold whose step preserves the route lists preserves them. -/
theorem foldl_preserves_routes {α : Type} {step : RouteSetGraph → α → RouteSetGraph}
    (l : List α) (g : RouteSetGraph)
    (h : ∀ gg a, (step gg a).routes = gg.routes) :
    (l.foldl step g).routes = g.routes := by
  induction l generalizing g with
  | nil => rfl
  | cons a t ih => rw [List.foldl_cons, ih, h]

/-- Helper: on the route dictionary, `remove_route` is exactly the
deletion of its slot. -/
theorem removeRoute_routes (g : RouteSetGraph) (r : Int) :
    (g.removeRoute r).routes = ddel g.routes r := by
  unfold removeRoute
  dsimp only
  rw [foldl_preserves_routes _ _ (removeRouteStep_routes r)]

/-- Helper: on the route dictionary, `_add_stop` is exactly the list
insertion at `stop_seq`. -/
theorem addStop_routes (g : RouteSetGraph) (s : Nat) (r : Int) (k : Nat) :
    (g.addStop s r k).routes = dmodify g.routes r (fun l => listInsertIdx l k s) := by
  unfold addStop addVertexToStopMapping
  dsimp only
  have hbase : (if (dget g.stops s).isSome then g else g.addStopBase s).routes = g.routes := by
    split <;> rfl
  split <;> rw [hbase]

/-- Helper: `_add_route_edge` never touches the route lists. -/
theorem addRouteEdge_routes (g : RouteSetGraph) (a b : Nat) (r : Int) (w : Int) :
    (g.addRouteEdge a b r w).routes = g.routes := by
  unfold addRouteEdge
  split <;> try rfl
  split <;> rfl

/-- Helper: inserting at the length appends. -/
theorem listInsertIdx_length (l : List α) (a : α) :
    listInsertIdx l l.length a = l ++ [a] := by
  unfold listInsertIdx
  rw [List.take_length, List.drop_length]

/-- Helper: on the route dictionary, `append_stop` is exactly an
append to the slot. -/
theorem appendStop_routes (g : RouteSetGraph) (s : Nat) (r : Int) :
    (g.appendStop s r).routes
      = dmodify g.routes r (fun l => listInsertIdx l ((dget g.routes r).getD []).length s) := by
  unfold appendStop
  dsimp only
  split
  · exact addStop_routes _ _ _ _
  · rw [addRouteEdge_routes, addStop_routes]

/-- Helper: `append_stop` appends the stop to its own route. -/
theorem appendStop_routes_self (g : RouteSetGraph) (s : Nat) (r : Int)
    (l : List Nat) (hl : dget g.routes r = some l) :
    dget (g.appendStop s r).routes r = some (l ++ [s]) := by
  rw [appendStop_routes, dget_dmodify, if_pos rfl, hl]
  simp [listInsertIdx_length]

/-- Helper: `append_stop` leaves other routes unchanged. -/
theorem appendStop_routes_ne (g : RouteSetGraph) (s : Nat) (r r2 : Int)
    (h : r2 ≠ r) :
    dget (g.appendStop s r).routes r2 = dget g.routes r2 := by
  rw [appendStop_routes, dget_dmodify, if_neg h]

end RouteSetGraph

end Thesis

namespace Thesis

namespace RouteSetGraph

/-- Helper: `add_route`'s stop loop builds the whole route. -/
theorem foldl_appendStop_routes (r : Int) (l : List Nat) :
    ∀ (g : RouteSetGraph) (acc : List Nat),
      dget g.routes r = some acc →
      dget ((l.foldl (fun gg sid => gg.appendStop sid r) g)).routes r = some (acc ++ l) ∧
      ∀ r2 : Int, r2 ≠ r →
        dget ((l.foldl (fun gg sid => gg.appendStop sid r) g)).routes r2 = dget g.routes r2 := by
  induction l with
  | nil => intro g acc hacc; exact ⟨by simpa using hacc, fun r2 h2 => rfl⟩
  | cons sid t ih =>
    intro g acc hacc
    rw [List.foldl_cons]
    obtain ⟨i1, i2⟩ := ih (g.appendStop sid r) (acc ++ [sid])
      (appendStop_routes_self g sid r acc hacc)
    refine ⟨by simpa using i1, fun r2 h2 => ?_⟩
    rw [i2 r2 h2, appendStop_routes_ne g sid r r2 h2]

/-- Helper: `add_route` stores exactly the given route in its slot. -/
theorem addRoute_routes_self (g : RouteSetGraph) (nr : List Nat) (r : Int) :
    dget (g.addRoute nr (some r)).routes r = some nr := by
  unfold addRoute
  dsimp only
  simp only [Option.getD_some]
  obtain ⟨i1, _⟩ := foldl_appendStop_routes r nr
    ({ g with routes_changed := true, routes := dset g.routes r [] }) []
    (by rw [dget_dset, if_pos rfl])
  simpa using i1

/-- Helper: `add_route` leaves other route slots unchanged. -/
theorem addRoute_routes_ne (g : RouteSetGraph) (nr : List Nat) (r r2 : Int)
    (h : r2 ≠ r) :
    dget (g.addRoute nr (some r)).routes r2 = dget g.routes r2 := by
  unfold addRoute
  dsimp only
  simp only [Option.getD_some]
  obtain ⟨_, i2⟩ := foldl_appendStop_routes r nr
    ({ g with routes_changed := true, routes := dset g.routes r [] }) []
    (by rw [dget_dset, if_pos rfl])
  rw [i2 r2 h]
  dsimp only
  rw [dget_dset, if_neg h]

/-- Helper: `replace_route` stores exactly the new route in the slot. -/
theorem replaceRoute_routes_self (g : RouteSetGraph) (r : Int) (nr : List Nat) :
    dget (g.replaceRoute r nr).routes r = some nr := by
  unfold replaceRoute
  dsimp only
  exact addRoute_routes_self _ nr r

/-- Helper: `replace_route` leaves other route slots unchanged. -/
theorem replaceRoute_routes_ne (g : RouteSetGraph) (r r2 : Int) (nr : List Nat)
    (h : r2 ≠ r) :
    dget (g.replaceRoute r nr).routes r2 = dget g.routes r2 := by
  unfold replaceRoute
  dsimp only
  rw [addRoute_routes_ne _ nr r r2 h, removeRoute_routes, dget_ddel, if_neg h]

end RouteSetGraph

end Thesis

namespace Thesis

/-- Helper: one crossover swap exchanges the routes of the processed
slot (identical routes are skipped, which exchanges them trivially). -/
theorem crossoverStep_at (q : RouteSetGraph × RouteSetGraph) (i : Nat)
    (l1 l2 : List Nat)
    (h1 : dget q.1.routes (i : Int) = some l1)
    (h2 : dget q.2.routes (i : Int) = some l2) :
    dget (crossoverStep q i).1.routes (i : Int) = some l2 ∧
    dget (crossoverStep q i).2.routes (i : Int) = some l1 := by
  unfold crossoverStep
  dsimp only
  rw [h1, h2]
  simp only [Option.getD_some]
  by_cases he : l1 = l2
  · rw [if_pos he, h1, h2, he]
    exact ⟨rfl, rfl⟩
  · rw [if_neg he]
    exact ⟨RouteSetGraph.replaceRoute_routes_self _ _ _,
           RouteSetGraph.replaceRoute_routes_self _ _ _⟩

/-- Helper: one crossover swap leaves the other slots unchanged. -/
theorem crossoverStep_ne (q : RouteSetGraph × RouteSetGraph) (i : Nat) (j : Int)
    (h : j ≠ (i : Int)) :
    dget (crossoverStep q i).1.routes j = dget q.1.routes j ∧
    dget (crossoverStep q i).2.routes j = dget q.2.routes j := by
  unfold crossoverStep
  dsimp only
  split
  · exact ⟨rfl, rfl⟩
  · exact ⟨RouteSetGraph.replaceRoute_routes_ne _ _ _ _ h,
           RouteSetGraph.replaceRoute_routes_ne _ _ _ _ h⟩

/-- Helper: the swap loop leaves unprocessed slots unchanged. -/
theorem foldl_crossoverStep_ne (idxs : List Nat) :
    ∀ (q : RouteSetGraph × RouteSetGraph) (j : Int),
      (∀ i ∈ idxs, j ≠ (i : Int)) →
      dget (idxs.foldl crossoverStep q).1.routes j = dget q.1.routes j ∧
      dget (idxs.foldl crossoverStep q).2.routes j = dget q.2.routes j := by
  induction idxs with
  | nil => intro q j hj; exact ⟨rfl, rfl⟩
  | cons a t ih =>
    intro q j hj
    rw [List.foldl_cons]
    obtain ⟨i1, i2⟩ := ih (crossoverStep q a) j (fun i hi => hj i (List.mem_cons_of_mem a hi))
    obtain ⟨s1, s2⟩ := crossoverStep_ne q a j (hj a (List.mem_cons_self a t))
    exact ⟨by rw [i1, s1], by rw [i2, s2]⟩

/-- Helper: over distinct slots holding the parents' routes, the swap
loop exchanges the two route lists slot by slot. -/
theorem foldl_crossoverStep_swaps (p1o p2o : RouteSetGraph) (idxs : List Nat) :
    ∀ q : RouteSetGraph × RouteSetGraph,
      idxs.Nodup →
      (∀ i ∈ idxs,
        dget q.1.routes (i : Int) = dget p1o.routes (i : Int) ∧
        dget q.2.routes (i : Int) = dget p2o.routes (i : Int) ∧
        (dget p1o.routes (i : Int)).isSome ∧ (dget p2o.routes (i : Int)).isSome) →
      ∀ i ∈ idxs,
        dget (idxs.foldl crossoverStep q).1.routes (i : Int) = dget p2o.routes (i : Int) ∧
        dget (idxs.foldl crossoverStep q).2.routes (i : Int) = dget p1o.routes (i : Int) := by
  induction idxs with
  | nil => intro q hnd hinv i hi; exact absurd hi (List.not_mem_nil i)
  | cons a t ih =>
    intro q hnd hinv i hi
    rw [List.foldl_cons]
    obtain ⟨ha1, ha2, ha3, ha4⟩ := hinv a (List.mem_cons_self a t)
    obtain ⟨l1, hl1⟩ := Option.isSome_iff_exists.mp ha3
    obtain ⟨l2, hl2⟩ := Option.isSome_iff_exists.mp ha4
    have hq1 : dget q.1.routes (a : Int) = some l1 := by rw [ha1, hl1]
    have hq2 : dget q.2.routes (a : Int) = some l2 := by rw [ha2, hl2]
    obtain ⟨sa1, sa2⟩ := crossoverStep_at q a l1 l2 hq1 hq2
    have hnd2 := (List.nodup_cons.mp hnd)
    rcases List.mem_cons.mp hi with hia | hit
    · subst hia
      obtain ⟨f1, f2⟩ := foldl_crossoverStep_ne t (crossoverStep q i) (i : Int)
        (fun i2 hi2 => by
          intro hcast
          exact hnd2.1 (by rwa [← Int.natCast_inj.mp hcast] at hi2))
      rw [f1, f2, sa1, sa2, hl1, hl2]
      exact ⟨rfl, rfl⟩
    · refine ih (crossoverStep q a) hnd2.2 (fun i2 hi2 => ?_) i hit
      have hne : (i2 : Int) ≠ (a : Int) := by
        intro hcast
        exact hnd2.1 (by rwa [Int.natCast_inj.mp hcast] at hi2)
      obtain ⟨s1, s2⟩ := crossoverStep_ne q a (i2 : Int) hne
      obtain ⟨g1, g2, g3, g4⟩ := hinv i2 (List.mem_cons_of_mem a hi2)
      exact ⟨by rw [s1, g1], by rw [s2, g2], g3, g4⟩

end Thesis

namespace Thesis

/-- C8: with `p_swap = 0` crossover returns the two clones untouched
(no sample in `[0, 1)` is below 0), and with `p_swap = 1` every slot is
selected and the children's route lists are the parents' route lists
exchanged at every index — indices with identical routes are skipped by
the code, which leaves exactly the exchanged lists as well. -/
theorem C8_crossover_swap (p1 p2 : RouteSetGraph) (samples : Nat → Rat)
    (hs : ∀ i, 0 ≤ samples i ∧ samples i < 1)
    (hlen : p2.routes.length = p1.routes.length)
    (hkeys : ∀ i : Nat, i < p1.routes.length →
      (dget p1.routes (i : Int)).isSome ∧ (dget p2.routes (i : Int)).isSome) :
    crossover p1 p2 0 samples = (p1.copy, p2.copy) ∧
    (∀ i : Nat, i < p1.routes.length →
      dget (crossover p1 p2 1 samples).1.routes (i : Int) = dget p2.routes (i : Int) ∧
      dget (crossover p1 p2 1 samples).2.routes (i : Int) = dget p1.routes (i : Int)) := by
  constructor
  · unfold crossover
    dsimp only
    have hfil : (List.range p1.copy.nroutes).filter (fun i => decide (samples i < 0)) = [] := by
      apply List.filter_eq_nil_iff.mpr
      intro a _
      simp only [decide_eq_true_eq]
      exact not_lt.mpr (hs a).1
    rw [hfil]
    rfl
  · intro i hi
    unfold crossover
    dsimp only
    have hfil : (List.range p1.copy.nroutes).filter (fun i => decide (samples i < 1)) =
        List.range p1.routes.length := by
      have : p1.copy.nroutes = p1.routes.length := rfl
      rw [this]
      apply List.filter_eq_self.mpr
      intro a _
      simp only [decide_eq_true_eq]
      exact (hs a).2
    rw [hfil]
    exact foldl_crossoverStep_swaps p1 p2 (List.range p1.routes.length)
      (p1.copy, p2.copy) (List.nodup_range _)
      (fun i2 hi2 => ⟨rfl, rfl, (hkeys i2 (List.mem_range.mp hi2)).1,
        (hkeys i2 (List.mem_range.mp hi2)).2⟩)
      i (List.mem_range.mpr hi)

end Thesis

namespace Thesis

/-- First crossover-witness parent: routes `[1,2]` and `[3,4]`. -/
def p1Ex : RouteSetGraph := (RouteSetGraph.empty.addRoute [1, 2] none).addRoute [3, 4] none

/-- Second crossover-witness parent: routes `[5,6]` and `[3,4]` (the
second route is identical to the first parent's). -/
def p2Ex : RouteSetGraph := (RouteSetGraph.empty.addRoute [5, 6] none).addRoute [3, 4] none

/-- Uniform samples drawn in the crossover witness. -/
def samplesEx : Nat → Rat := fun _ => 0

/-- C8 witness: two-route parents sharing their second route. -/
theorem C8_crossover_swap_witness :
    crossover p1Ex p2Ex 0 samplesEx = (p1Ex.copy, p2Ex.copy) ∧
    (∀ i : Nat, i < p1Ex.routes.length →
      dget (crossover p1Ex p2Ex 1 samplesEx).1.routes (i : Int) = dget p2Ex.routes (i : Int) ∧
      dget (crossover p1Ex p2Ex 1 samplesEx).2.routes (i : Int) = dget p1Ex.routes (i : Int)) :=
  C8_crossover_swap p1Ex p2Ex samplesEx (fun i => ⟨le_refl 0, by simp [samplesEx]⟩) (by decide) (by decide)

end Thesis
